import Mathlib

/-!
Verification development for the audio synthesis / playback core of the
that38.github.io browser music editor (src/js/AudioEngine.js and the
loop-wraparound logic of src/js/PianoRoll.js).

Conventions of the shallow embedding:
* JS numbers holding exact integer or decimal values are modelled as
  `Int`/`Nat`/`Rat`; audio gain values produced by `Math.pow(10, e)` are
  recorded symbolically as `GainVal.pow10 e` (see `GainVal`).
* JS `x % y` (remainder with the sign of the dividend, for a positive
  `y`) is `jsRem`; `Math.round` is `jsRound` (exactly `⌊x + 1/2⌋`, the
  JS half-up rounding); `Math.floor(a / b)` on integers is `Int.fdiv`;
  `Math.max`/`Math.min` are `jsMax`/`jsMin`.
* The mutable `AudioEngine` object is an explicit `EngineState`; Web
  Audio node mutations (`gain.gain.setValueAtTime`, `source.stop`, ...)
  are recorded as event lists inside each `Voice`, in call order.
* Sample names are `List Char` (JS strings), so that prefix tests and
  `parseInt` are computable by kernel reduction.
-/

namespace That38

/-- The file constants.js is not part of the sources under verification.
Modelled from the spec: 72-EDO, "8 octaves × 72 steps". -/
def NOTES_PER_OCTAVE : ℕ := 72

/-- Modelled from the spec: the gain formula uses `velocity*2` on the
0–254 "authentic" scale, so `ORG_VELOCITY_SCALE = 2` (`constants.js`
is not under src/). -/
def ORG_VELOCITY_SCALE : ℤ := 2

/-- Modelled from the spec: the drum pitch formula divides by "a fixed
base sample rate" (`constants.js` is not under src/); the classic
Organya value 22050 is used.  No claim depends on the value, only on
its positivity. -/
def BASE_SAMPLE_RATE : ℚ := 22050

/-- Modelled from the spec: the small delay used by `stopNote`
(`AUDIO_STOP_DELAY` from `constants.js`, not under src/); the spec
describes the explicit-stop release as about 5 ms.  No claim depends
on the value. -/
def AUDIO_STOP_DELAY : ℚ := 5 / 1000

/-- JS `Math.round`: half-up rounding, `Math.round x = ⌊x + 1/2⌋`
(also for negative `x`: `Math.round(-1.5) = -1 = ⌊-1⌋`).
Written with `Rat.floor` so that it evaluates by kernel reduction. -/
def jsRound (q : ℚ) : ℤ := Rat.floor (q + 1 / 2)

/-- JS `%` on numbers, for a positive modulus: remainder carrying the
sign of the dividend (`-5 % 72 = -5` in JS). -/
def jsRem (a b : ℤ) : ℤ := if 0 ≤ a then a % b else -((-a) % b)

/-- JS `Math.max` on two integers. -/
def jsMax (a b : ℤ) : ℤ := if a ≤ b then b else a

/-- JS `Math.min` on two integers. -/
def jsMin (a b : ℤ) : ℤ := if a ≤ b then a else b

/-- JS `a || b` on numbers: `b` if `a` is `0` (falsy), else `a`. -/
def jsOrQ (a b : ℚ) : ℚ := if a = 0 then b else a

/-- Base point frequencies for each pitch class, C through B
(src/js/AudioEngine.js:429). -/
def basePointFreqs : List ℕ :=
  [33408, 35584, 37632, 39808, 42112, 44672, 47488, 50048, 52992, 56320, 59648, 63232]

/-- Period sizes for each octave (src/js/AudioEngine.js:432). -/
def periodSizes : List ℕ := [1024, 512, 256, 128, 64, 32, 16, 8]

/-- Octave-indexed base loop counts for finite ("pipi") looping
(src/js/AudioEngine.js:300). -/
def octSizes : List ℕ := [4, 8, 12, 16, 20, 24, 28, 32]

/-- Lines 427-449 of src/js/AudioEngine.js (melodic branch of
`calculatePlaybackRate`): octave = `Math.floor(key/72)`, microtonal
position = `key % 72` (JS remainder), pitch class =
`Math.round(micro/6) % 12`, octave clamped to `[0,7]` and pitch class
clamped to `[0,11]`; `freqAdjust` is added to the point frequency,
which is then divided by the octave's period size (the `organyaFreq`
local of the source). -/
def melodicFreq (keyNumber : ℤ) (freqAdjust : ℚ) : ℚ :=
  let octave : ℤ := Int.fdiv keyNumber (NOTES_PER_OCTAVE : ℤ)
  let microtonalPosition : ℤ := jsRem keyNumber (NOTES_PER_OCTAVE : ℤ)
  let pitchClassIndex : ℤ := jsRem (jsRound ((microtonalPosition : ℚ) / 6)) 12
  let clampedOctave : ℤ := jsMax 0 (jsMin 7 octave)
  let clampedPitchClass : ℤ := jsMax 0 (jsMin 11 pitchClassIndex)
  let pointFrequency : ℚ := (basePointFreqs.getD clampedPitchClass.toNat 0 : ℚ) + freqAdjust
  pointFrequency / (periodSizes.getD clampedOctave.toNat 0 : ℚ)

/-- Lines 421-425 of src/js/AudioEngine.js (drum branch of
`calculatePlaybackRate`): drum "frequency"
`clamp(round(key/6), 0, 255) * 800 + 100`. -/
def drumFreq (keyNumber : ℤ) : ℚ :=
  let drumKey : ℤ := jsRound ((keyNumber : ℚ) / 6)
  let clampedKey : ℤ := jsMax 0 (jsMin 255 drumKey)
  (clampedKey : ℚ) * 800 + 100

/-- AudioEngine.calculatePlaybackRate (src/js/AudioEngine.js:420-458).
`sampleName` is accepted but unused, exactly as in the source (the
branch is chosen by `isDrum`).  `deviceSampleRate` models
`this.audioContext.sampleRate`; the melodic result is
`organyaFreq * 256 / sampleRate` (line 456), the drum result is
`drumFreq / BASE_SAMPLE_RATE` (line 425). -/
def calculatePlaybackRate (keyNumber : ℤ) (sampleName : List Char) (isDrum : Bool)
    (freqAdjust : ℚ) (deviceSampleRate : ℚ) : ℚ :=
  if isDrum then
    drumFreq keyNumber / BASE_SAMPLE_RATE
  else
    (melodicFreq keyNumber freqAdjust * 256) / deviceSampleRate

/-- The pitch class actually selected for a key `k ∈ [0,575]`:
`round((k mod 72)/6)` half-up in integers, wrapped mod 12. -/
def pcN (k : ℕ) : ℕ := ((k % 72 + 3) / 6) % 12

/-- Integer-valued "height" of a melodic key: point frequency of its
pitch class scaled by `2^octave`.  `melodicFreq k 0 = rateNum k / 1024`
for keys in range, so ordering facts about the playback rate reduce to
ordering facts about `rateNum`. -/
def rateNum (k : ℕ) : ℕ := basePointFreqs.getD (pcN k) 0 * 2 ^ (k / 72)

/-- Generic sample names used for concrete runs: `"ORG_M00"`, `"ORG_D00"`. -/
def nameM00 : List Char := ['O', 'R', 'G', '_', 'M', '0', '0']

def nameD00 : List Char := ['O', 'R', 'G', '_', 'D', '0', '0']

/-- A binary blob (the fetched `wavetable.bin` ArrayBuffer): a length
and a byte function; reads mask to `[0,255]` via `Blob.u8`. -/
structure Blob where
  len : ℕ
  byte : ℕ → ℕ

/-- An `Int8Array`/`DataView` byte read (unsigned view). -/
def Blob.u8 (b : Blob) (i : ℕ) : ℕ := b.byte i % 256

/-- Signed interpretation of a byte (`Int8Array` element). -/
def signedByte (b : ℕ) : ℤ := if 128 ≤ b % 256 then (b % 256 : ℤ) - 256 else (b % 256 : ℤ)

/-- Models `DataView.getUint16(i, true)` — errors (models the JS `RangeError`)
when the read would cross the end of the buffer. -/
def dvU16 (b : Blob) (i : ℕ) : Except Unit ℕ :=
  if i + 2 ≤ b.len then .ok (b.u8 i + 256 * b.u8 (i + 1)) else .error ()

/-- Models `DataView.getUint32(i, true)` — little-endian, bounds-checked. -/
def dvU32 (b : Blob) (i : ℕ) : Except Unit ℕ :=
  if i + 4 ≤ b.len then
    .ok (b.u8 i + 256 * b.u8 (i + 1) + 65536 * b.u8 (i + 2) + 16777216 * b.u8 (i + 3))
  else .error ()

/-- A parsed drum entry (src/js/AudioEngine.js:97-102): `filePos` of the
`data` chunk payload, its byte size, the sample bit width and rate.
The source stores `samples = chunkSize / (bits / 8)`; we keep
`chunkSize` and recompute (see `drumSampleCount`). -/
structure DrumChunk where
  filePos : ℕ
  chunkSize : ℕ
  bits : ℕ
  sampleRate : ℕ
deriving DecidableEq

/-- A decoded `AudioBuffer`. -/
structure Buffer where
  numSamples : ℕ
  sampleRate : ℚ
  data : List ℚ
deriving DecidableEq

/-- Volume values scheduled on a gain `AudioParam`.  The source only
ever sets `0`, `Math.pow(10, e)` for an exponent `e`, or the parameter's
current value (`gain.gain.value`, used by the first automation point);
`pow10 e` records the exponent symbolically. -/
inductive GainVal
  | zero
  | pow10 (e : ℚ)
  | current
deriving DecidableEq

/-- One scheduled call on the gain `AudioParam`, in source call order:
`setValueAtTime` or `linearRampToValueAtTime`. -/
inductive GainEvent
  | setValue (t : ℚ) (v : GainVal)
  | linearRamp (t : ℚ) (v : GainVal)
deriving DecidableEq

/-- Returns `true` exactly for `linearRampToValueAtTime` events. -/
def GainEvent.isRamp : GainEvent → Bool
  | .setValue _ _ => false
  | .linearRamp _ _ => true

/-- The scheduled time of a gain event. -/
def GainEvent.time : GainEvent → ℚ
  | .setValue t _ => t
  | .linearRamp t _ => t

/-- One playing voice: the `noteData` record of `playNote`
(`{source, gain, panner, isDrum, ...}`) together with the mutations
performed on its Web Audio nodes, recorded in call order. -/
structure Voice where
  isDrum : Bool
  keyNumber : ℤ
  startTime : ℚ
  loop : Bool
  playbackRate : ℚ
  rateRampTargets : List ℚ
  panValue : ℚ
  panRamps : List (ℚ × ℚ)
  gainEvents : List GainEvent
  startCalls : List ℚ
  stopCalls : List ℚ
deriving DecidableEq

/-- A tick-indexed volume automation breakpoint. -/
structure VolPoint where
  tick : ℚ
  volume : ℤ
deriving DecidableEq

/-- A tick-indexed pan automation breakpoint. -/
structure PanPoint where
  tick : ℚ
  pan : ℚ
deriving DecidableEq

/-- Association-list model of a JS `Map` (`get`). -/
def mapGet {κ α : Type} [DecidableEq κ] : List (κ × α) → κ → Option α
  | [], _ => none
  | (k', v) :: rest, k => if k = k' then some v else mapGet rest k

/-- Association-list model of a JS `Map` (`set`): update in place if
the key is present, else append. -/
def mapSet {κ α : Type} [DecidableEq κ] (m : List (κ × α)) (k : κ) (v : α) :
    List (κ × α) :=
  if (mapGet m k).isSome then
    m.map fun p => if p.1 = k then (k, v) else p
  else m ++ [(k, v)]

/-- Association-list model of a JS `Map` (`delete`). -/
def mapDelete {κ α : Type} [DecidableEq κ] : List (κ × α) → κ → List (κ × α)
  | [], _ => []
  | (k', v) :: rest, k => if k' = k then mapDelete rest k else (k', v) :: mapDelete rest k

/-- The mutable state of the `AudioEngine` object
(src/js/AudioEngine.js:14-37).  Voices live in an id-indexed heap
(`voices`) so that the JS aliasing of `noteData` objects between
`activeNotes`, `currentGlissandoNote` and returned handles is explicit:
maps hold voice ids, `nextId` is the allocator counter. -/
structure EngineState where
  nextId : ℕ
  voices : List (ℕ × Voice)
  activeNotes : List (ℤ × ℕ)
  loadedSamples : List (List Char × Buffer)
  wavetable : Option Blob
  drums : List DrumChunk
  masterGain : ℚ
  currentGlissandoNote : Option ℕ
  currentGlissandoKey : Option ℤ
  currentBPM : ℚ

/-- The constructor state (src/js/AudioEngine.js:15-37). -/
def initialState : EngineState :=
  { nextId := 0, voices := [], activeNotes := [], loadedSamples := []
    wavetable := none, drums := [], masterGain := 3 / 10
    currentGlissandoNote := none, currentGlissandoKey := none, currentBPM := 120 }

/-- The browser environment of the engine: the audio clock, the device
sample rate, and the fallback `fetch('samples/*.wav')` of `loadSample`
(src/js/AudioEngine.js:196-205), which may fail (`none`). -/
structure Env where
  currentTime : ℚ
  sampleRate : ℚ
  fetchWav : List Char → Option Buffer

/-- JS `parseInt(name.substring(5))`: the leading digit run of the
name after position 5; `none` models `NaN` (every comparison with it
is false). -/
def parseIntPast5 (name : List Char) : Option ℕ :=
  let ds := (name.drop 5).takeWhile Char.isDigit
  if ds.isEmpty then none
  else some (ds.foldl (fun acc c => acc * 10 + (c.toNat - 48)) 0)

/-- Models `sampleName.startsWith('ORG_D')`. -/
def isDrumName (name : List Char) : Bool :=
  List.isPrefixOf ['O', 'R', 'G', '_', 'D'] name

/-- Models `sampleName.startsWith('ORG_M')`. -/
def isMelodicName (name : List Char) : Bool :=
  List.isPrefixOf ['O', 'R', 'G', '_', 'M'] name

/-- The 256-sample melodic wavetable buffer (src/js/AudioEngine.js:158-189):
signed 8-bit samples scaled to `[-1,1)`, at the device sample rate. -/
def melodicBuffer (wt : Blob) (waveIndex : ℕ) (deviceSampleRate : ℚ) : Buffer :=
  { numSamples := 256, sampleRate := deviceSampleRate
    data := (List.range 256).map fun i =>
      ((signedByte (wt.u8 (256 * waveIndex + i)) : ℤ) : ℚ) / 128 }

/-- The sample count `chunkSize / (bits / 8)` of a drum
(src/js/AudioEngine.js:99): `createBuffer` throws unless it is a
positive integer, which the caller catches (yielding `none` here). -/
def drumSampleCount (bits chunkSize : ℕ) : Option ℕ :=
  if bits = 0 then none
  else
    let q : ℚ := (chunkSize : ℚ) / ((bits : ℚ) / 8)
    if 0 < q.num ∧ q.den = 1 then some q.num.toNat else none

/-- PCM decode of a drum buffer (src/js/AudioEngine.js:130-157):
8-bit unsigned or 16-bit little-endian signed; other widths leave the
channel silent, exactly as the source's `if`/`else if` does.  `none`
models the caught `createBuffer` exception (then `loadSample` falls
back to fetching a WAV file). -/
def drumBuffer (wt : Blob) (d : DrumChunk) : Option Buffer :=
  match drumSampleCount d.bits d.chunkSize with
  | none => none
  | some n =>
    some { numSamples := n
           sampleRate := jsOrQ (d.sampleRate : ℚ) BASE_SAMPLE_RATE
           data := (List.range n).map fun i =>
             if d.bits = 8 then
               (((wt.u8 (d.filePos + i) : ℤ) - 128 : ℤ) : ℚ) / 128
             else if d.bits = 16 then
               let low : ℤ := wt.u8 (d.filePos + 2 * i)
               let high : ℤ := signedByte (wt.u8 (d.filePos + 2 * i + 1))
               let sample : ℤ := high * 256 + low
               let signed : ℤ := if 32767 < sample then sample - 65536 else sample
               ((signed : ℤ) : ℚ) / 32768
             else 0 }

/-- AudioEngine.loadSample (src/js/AudioEngine.js:122-206): cached
lookup, then wavetable-backed drum/melodic buffer construction, then
the fetch fallback; returns `none` (JS `null`/`undefined`) when no
buffer can be produced. -/
def loadSample (env : Env) (s : EngineState) (sampleName : List Char) :
    EngineState × Option Buffer :=
  match mapGet s.loadedSamples sampleName with
  | some buf => (s, some buf)
  | none =>
    let fallback : EngineState × Option Buffer :=
      match env.fetchWav sampleName with
      | some buf => ({ s with loadedSamples := mapSet s.loadedSamples sampleName buf }, some buf)
      | none => (s, none)
    match s.wavetable with
    | none => fallback
    | some wt =>
      if isDrumName sampleName then
        match parseIntPast5 sampleName with
        | none => fallback
        | some drumIndex =>
          if hd : drumIndex < s.drums.length then
            match drumBuffer wt (s.drums.get ⟨drumIndex, hd⟩) with
            | some buf =>
              ({ s with loadedSamples := mapSet s.loadedSamples sampleName buf }, some buf)
            | none => fallback
          else fallback
      else if isMelodicName sampleName then
        match parseIntPast5 sampleName with
        | none => fallback
        | some waveIndex =>
          if waveIndex ≤ 99 then
            let buf := melodicBuffer wt waveIndex env.sampleRate
            ({ s with loadedSamples := mapSet s.loadedSamples sampleName buf }, some buf)
          else fallback
      else fallback

/-- JS `Math.max` on rationals (for `Math.max(...ticks, 1)`). -/
def jsMaxQ (a b : ℚ) : ℚ := if a ≤ b then b else a

/-- AudioEngine.updateGlissandoPitch (src/js/AudioEngine.js:397-415):
ramp the current glissando voice's playback rate to the new key's rate,
move the key→voice map entry from the old glissando key to the new key,
and remember the new key. -/
def updateGlissandoPitch (env : Env) (s : EngineState) (keyNumber : ℤ)
    (sampleName : List Char) : EngineState :=
  let isDrum := isDrumName sampleName
  let targetRate := calculatePlaybackRate keyNumber sampleName isDrum 0 env.sampleRate
  match s.currentGlissandoNote with
  | none => s
  | some gid =>
    let s1 :=
      match mapGet s.voices gid with
      | none => s
      | some v =>
        { s with voices := (mapSet s.voices gid
            { v with rateRampTargets := v.rateRampTargets ++ [targetRate] }) }
    let s2 :=
      match s1.currentGlissandoKey with
      | none => s1
      | some gk => { s1 with activeNotes := mapDelete s1.activeNotes gk }
    { s2 with activeNotes := mapSet s2.activeNotes keyNumber gid
              currentGlissandoKey := some keyNumber }

/-- The gain events produced by the volume automation block
(src/js/AudioEngine.js:327-350): points sorted by tick (stably, as JS
`Array.sort`), the first ramped in from the current gain value, the
rest set instantaneously for tight gating. -/
def volAutomationEvents (startTime duration : ℚ) (tickDuration : Option ℚ)
    (pts : List VolPoint) : List GainEvent :=
  let sorted := pts.mergeSort (fun a b => a.tick ≤ b.tick)
  let maxTick : ℚ := (sorted.map (fun p => p.tick)).foldl jsMaxQ 1
  let actualTickDuration : ℚ :=
    match tickDuration with
    | some td => jsOrQ td (duration / maxTick)
    | none => duration / maxTick
  (sorted.enum.map fun p =>
    let time := startTime + p.2.tick * actualTickDuration
    let volExp : ℚ := (((p.2.volume * ORG_VELOCITY_SCALE - 255) * 8 : ℤ) : ℚ) / 2000
    if p.1 = 0 then
      [GainEvent.setValue (time - 1 / 1000) .current, GainEvent.linearRamp time (.pow10 volExp)]
    else [GainEvent.setValue time (.pow10 volExp)]).flatten

/-- The pan ramps produced by the pan automation block
(src/js/AudioEngine.js:353-361). -/
def panAutomationEvents (startTime duration : ℚ) (tickDuration : Option ℚ)
    (pts : List PanPoint) : List (ℚ × ℚ) :=
  let sorted := pts.mergeSort (fun a b => a.tick ≤ b.tick)
  let maxTick : ℚ := (sorted.map (fun p => p.tick)).foldl jsMaxQ 1
  let actualTickDuration : ℚ :=
    match tickDuration with
    | some td => jsOrQ td (duration / maxTick)
    | none => duration / maxTick
  sorted.map fun p => (startTime + p.tick * actualTickDuration, p.pan / 100)

/-- The finite-loop duration of src/js/AudioEngine.js:297-305:
`numLoops = octSizes[min(octave, 7)] * pipi` wave cycles of 256
samples each, at the computed playback rate:
`loopDuration = 256*numLoops / (sampleRate * playbackRate)`. -/
def pipiLoopDuration (env : Env) (keyNumber : ℤ) (sampleName : List Char)
    (actualPipi : ℤ) (freqAdjust : ℚ) : ℚ :=
  let octave : ℤ := Int.fdiv keyNumber (NOTES_PER_OCTAVE : ℤ)
  let idx : ℤ := jsMin octave 7
  let numLoops : ℚ := (octSizes.getD idx.toNat 0 : ℚ) * (actualPipi : ℚ)
  let playbackRate := calculatePlaybackRate keyNumber sampleName false freqAdjust env.sampleRate
  (256 * numLoops) / (env.sampleRate * playbackRate)

/-- The finite-loop ("pipi") self-stop time of a melodic voice
(src/js/AudioEngine.js:295-317): `some t` when the loops complete
before `duration` (gain is zeroed and `source.stop` is called at `t`),
`none` otherwise.  Two JS `NaN`/`Infinity` cases make the `<`
comparison false and are modelled explicitly: a negative octave
indexes `octSizes` out of bounds (`undefined`, so `loopDuration` is
`NaN`), and a zero `sampleRate * playbackRate` denominator gives
`Infinity`. -/
def pipiSelfStop (env : Env) (keyNumber : ℤ) (sampleName : List Char)
    (startTime duration : ℚ) (actualPipi : ℤ) (freqAdjust : ℚ) : Option ℚ :=
  if 0 < actualPipi then
    let octave : ℤ := Int.fdiv keyNumber (NOTES_PER_OCTAVE : ℤ)
    let idx : ℤ := jsMin octave 7
    if idx < 0 then none
    else
      let playbackRate := calculatePlaybackRate keyNumber sampleName false freqAdjust env.sampleRate
      if env.sampleRate * playbackRate = 0 then none
      else
        let loopDuration : ℚ := pipiLoopDuration env keyNumber sampleName actualPipi freqAdjust
        if loopDuration < duration then some (startTime + loopDuration) else none
  else none

/-- Lines 237-250 of playNote: if the key already has a live voice and
it is not a drum, clear its loop flag (so it finishes its current wave
cycle and self-retires instead of being hard-cut) and drop it from the
key→voice map; drums are NOT stopped. -/
def retireExistingNote (s : EngineState) (keyNumber : ℤ) : EngineState :=
  match mapGet s.activeNotes keyNumber with
  | none => s
  | some vid =>
    match mapGet s.voices vid with
    | none => s
    | some v =>
      if v.isDrum then s
      else
        { s with voices := mapSet s.voices vid { v with loop := false }
                 activeNotes := mapDelete s.activeNotes keyNumber }

/-- AudioEngine.playNote (src/js/AudioEngine.js:229-392).  Returns the
updated engine state and, when a voice was started, its heap id and
the `noteData` record (`none` models the JS early `return` paths:
the glissando-update path and the missing-buffer path). -/
def playNote (env : Env) (s : EngineState) (keyNumber : ℤ) (velocity : ℤ)
    (sampleName : List Char) (isGlissando : Bool) (pan : ℚ) (when : ℚ) (duration : ℚ)
    (pipi : Option ℤ) (volumeAutomation : Option (List VolPoint))
    (panAutomation : Option (List PanPoint)) (freqAdjust : ℚ) (tickDuration : Option ℚ) :
    EngineState × Option (ℕ × Voice) :=
  if isGlissando ∧ s.currentGlissandoNote.isSome then
    (updateGlissandoPitch env s keyNumber sampleName, none)
  else
    let s1 := retireExistingNote s keyNumber
    match loadSample env s1 sampleName with
    | (s2, none) => (s2, none)
    | (s2, some _buffer) =>
      let startTime := jsOrQ when env.currentTime
      let isDrum := isDrumName sampleName
      let playbackRate :=
        calculatePlaybackRate keyNumber sampleName isDrum freqAdjust env.sampleRate
      let orgVolExp : ℚ := (((velocity * ORG_VELOCITY_SCALE - 255) * 8 : ℤ) : ℚ) / 2000
      if isDrum then
        -- lines 284-287; line 368 skips the stop scheduling for drums,
        -- lines 380-383 do not register drums in activeNotes
        let v : Voice :=
          { isDrum := true, keyNumber := keyNumber, startTime := startTime
            loop := false, playbackRate := playbackRate, rateRampTargets := []
            panValue := pan / 100, panRamps := []
            gainEvents := [.setValue startTime (.pow10 orgVolExp)]
            startCalls := [startTime], stopCalls := [] }
        let s3 :=
          { s2 with voices := s2.voices ++ [(s2.nextId, v)]
                    nextId := s2.nextId + 1
                    currentGlissandoNote :=
                      if isGlissando then some s2.nextId else s2.currentGlissandoNote
                    currentGlissandoKey :=
                      if isGlissando then some keyNumber else s2.currentGlissandoKey }
        (s3, some (s2.nextId, v))
      else
        let actualPipi : ℤ := pipi.getD 0
        let selfStop :=
          pipiSelfStop env keyNumber sampleName startTime duration actualPipi freqAdjust
        let preGain : List GainEvent :=
          match selfStop with
          | some t => [.setValue t .zero]
          | none => []
        let preStops : List ℚ :=
          match selfStop with
          | some t => [t]
          | none => []
        let volEvents : List GainEvent :=
          match volumeAutomation with
          | none => []
          | some pts =>
            if 0 < pts.length then volAutomationEvents startTime duration tickDuration pts
            else []
        let panEvents : List (ℚ × ℚ) :=
          match panAutomation with
          | none => []
          | some pts =>
            if 0 < pts.length then panAutomationEvents startTime duration tickDuration pts
            else []
        let gainsBase : List GainEvent :=
          preGain ++ [.setValue startTime (.pow10 orgVolExp)] ++ volEvents
        if 0 < duration then
          -- lines 368-377: early return with the stop deadline; the voice
          -- is NOT entered into activeNotes
          let stopTime := startTime + duration
          let v : Voice :=
            { isDrum := false, keyNumber := keyNumber, startTime := startTime
              loop := true, playbackRate := playbackRate, rateRampTargets := []
              panValue := pan / 100, panRamps := panEvents
              gainEvents := gainsBase ++ [.setValue stopTime .zero]
              startCalls := [startTime], stopCalls := preStops ++ [stopTime] }
          let s3 := { s2 with voices := s2.voices ++ [(s2.nextId, v)], nextId := s2.nextId + 1 }
          (s3, some (s2.nextId, v))
        else
          -- lines 380-391
          let v : Voice :=
            { isDrum := false, keyNumber := keyNumber, startTime := startTime
              loop := true, playbackRate := playbackRate, rateRampTargets := []
              panValue := pan / 100, panRamps := panEvents
              gainEvents := gainsBase
              startCalls := [startTime], stopCalls := preStops }
          let s3 :=
            { s2 with voices := s2.voices ++ [(s2.nextId, v)]
                      nextId := s2.nextId + 1
                      activeNotes := mapSet s2.activeNotes keyNumber s2.nextId
                      currentGlissandoNote :=
                        if isGlissando then some s2.nextId else s2.currentGlissandoNote
                      currentGlissandoKey :=
                        if isGlissando then some keyNumber else s2.currentGlissandoKey }
          (s3, some (s2.nextId, v))

/-- AudioEngine.stopNote (src/js/AudioEngine.js:464-504): remove the
key's entry and schedule an immediate stop (the `setTimeout` node
disconnection only releases resources and is not observable here).
A key with no entry does nothing. -/
def stopNote (env : Env) (s : EngineState) (keyNumber : ℤ) : EngineState :=
  match mapGet s.activeNotes keyNumber with
  | none => s
  | some vid =>
    let s1 := { s with activeNotes := mapDelete s.activeNotes keyNumber }
    match mapGet s1.voices vid with
    | none => s1
    | some v =>
      let t := env.currentTime + AUDIO_STOP_DELAY
      { s1 with voices := (mapSet s1.voices vid
          { v with stopCalls := v.stopCalls ++ [t]
                   gainEvents := v.gainEvents ++ [.setValue t .zero] }) }

/-- AudioEngine.stopAllNotes (src/js/AudioEngine.js:509-513): stop every
key currently in the map (iteration order is the map's order; each
`stopNote` only deletes its own key, so this equals folding over the
initial key list). -/
def stopAllNotes (env : Env) (s : EngineState) : EngineState :=
  (s.activeNotes.map fun p => p.1).foldl (fun st k => stopNote env st k) s

/-- AudioEngine.setMasterVolume (src/js/AudioEngine.js:43-45). -/
def setMasterVolume (s : EngineState) (volume : ℚ) : EngineState :=
  { s with masterGain := volume / 100 }

/-- AudioEngine.setBPM (src/js/AudioEngine.js:50-52). -/
def setBPM (s : EngineState) (bpm : ℚ) : EngineState :=
  { s with currentBPM := bpm }

/-- The inner `data`-chunk scan of the wavetable parser
(src/js/AudioEngine.js:93-106): from `i`, read chunk headers until a
`'data'` chunk is found (returning its payload position and size) or
the guard `i < len - 8` fails.  The cursor advances by at least 8 per
iteration, so `len / 8 + 1` fuel suffices. -/
def scanDataChunk (b : Blob) : ℕ → ℕ → Except Unit (Option (ℕ × ℕ))
  | 0, _ => .ok none
  | fuel + 1, i =>
    if i < b.len - 8 then
      match dvU32 b i with
      | .error e => .error e
      | .ok chunkId =>
        match dvU32 b (i + 4) with
        | .error e => .error e
        | .ok chunkSize =>
          if chunkId = 0x61746164 then .ok (some (i + 8, chunkSize))
          else scanDataChunk b fuel (i + 8 + chunkSize)
    else .ok none

/-- The drum-discovery scan of `loadWavetable`
(src/js/AudioEngine.js:66-110): from byte 25600 (= 256·100), look for
`'WAVE'` tags; on each, expect an immediate `'fmt '` chunk, require
PCM (`aFormat = 1`) and mono, read the sample rate and bit width, then
locate the following `'data'` chunk and record the drum.  Returns the
drums found and `false` when a `DataView` read crossed the end of the
buffer (the JS `RangeError`, caught by the caller); drums pushed
before the error remain.  The cursor strictly advances, so `len + 1`
fuel suffices. -/
def scanWavetable (b : Blob) : ℕ → ℕ → List DrumChunk → List DrumChunk × Bool
  | 0, _, acc => (acc, true)
  | fuel + 1, i, acc =>
    if i < b.len - 4 then
      match dvU32 b i with
      | .error _ => (acc, false)
      | .ok tag =>
        if tag = 0x45564157 then
          match dvU32 b (i + 4) with
          | .error _ => (acc, false)
          | .ok riffId =>
            match dvU32 b (i + 8) with
            | .error _ => (acc, false)
            | .ok riffLen =>
              if riffId ≠ 0x20746d66 then scanWavetable b fuel (i + 13) acc
              else
                let startPos := i + 12
                match dvU16 b startPos with
                | .error _ => (acc, false)
                | .ok aFormat =>
                  if aFormat ≠ 1 then scanWavetable b fuel (startPos + riffLen + 1) acc
                  else
                    match dvU16 b (startPos + 2) with
                    | .error _ => (acc, false)
                    | .ok channels =>
                      if channels ≠ 1 then scanWavetable b fuel (startPos + riffLen + 1) acc
                      else
                        match dvU32 b (startPos + 4) with
                        | .error _ => (acc, false)
                        | .ok sampleRate =>
                          match dvU16 b (startPos + 14) with
                          | .error _ => (acc, false)
                          | .ok bits =>
                            match scanDataChunk b (b.len / 8 + 1) (startPos + 16) with
                            | .error _ => (acc, false)
                            | .ok found =>
                              let acc2 :=
                                match found with
                                | some (dataPos, chunkSize) =>
                                  acc ++ [{ filePos := dataPos, chunkSize := chunkSize
                                            bits := bits, sampleRate := sampleRate }]
                                | none => acc
                              scanWavetable b fuel (startPos + riffLen + 8 + 1) acc2
        else scanWavetable b fuel (i + 1) acc
    else (acc, true)

/-- AudioEngine.loadWavetable (src/js/AudioEngine.js:57-116).
`fetched = none` models a failed `fetch`/`arrayBuffer` (the state is
untouched, since `this.wavetable` is assigned only after both
succeed); otherwise the wavetable is installed, `drums` reset, and the
scan runs, any `RangeError` being caught into a `false` return with
the partially accumulated drums kept. -/
def loadWavetable (s : EngineState) (fetched : Option Blob) : EngineState × Bool :=
  match fetched with
  | none => (s, false)
  | some b =>
    let s1 := { s with wavetable := some b, drums := [] }
    match scanWavetable b (b.len + 1) 25600 [] with
    | (ds, ok) => ({ s1 with drums := ds }, ok)

/-- Loop-wraparound of the lookahead scheduler.  Modelled from the
spec: the live scheduler (PlaybackEngine.js) is not under src/; the
formula follows the spec's wraparound description, which coincides
with the retained scheduleNotes code in src/js/PianoRoll.js:196-202
(`displayMeasure = loopStart + ((displayMeasure - loopStart) %
loopLength)` when looping is enabled and the cursor measure has
reached `loopEnd`). -/
def displayMeasure (loopEnabled : Bool) (loopStart loopEnd scheduleMeasure : ℕ) : ℕ :=
  if loopEnabled ∧ loopEnd ≤ scheduleMeasure then
    loopStart + (scheduleMeasure - loopStart) % (loopEnd - loopStart)
  else scheduleMeasure

/-- The notes fetched for a cursor measure by one iteration of the
scheduling loop (src/js/PianoRoll.js:203-207:
`getNotesInMeasures(displayMeasure, displayMeasure + 1)`), abstracted
over the note store. -/
def fetchedNotesForMeasure {α : Type} (getNotesInMeasure : ℕ → List α)
    (loopEnabled : Bool) (loopStart loopEnd scheduleMeasure : ℕ) : List α :=
  getNotesInMeasure (displayMeasure loopEnabled loopStart loopEnd scheduleMeasure)

/-- Well-formedness of an engine state: the id allocator dominates
every voice id stored in the heap and in the key→voice map.  Holds for
`initialState` and is maintained by every operation; concrete witness
states are checked by `decide`. -/
def EngineState.WF (s : EngineState) : Prop :=
  (∀ p ∈ s.voices, p.1 < s.nextId) ∧ (∀ p ∈ s.activeNotes, p.2 < s.nextId)

instance (s : EngineState) : Decidable s.WF := by
  unfold EngineState.WF; infer_instance

/-- A concrete browser environment for witnesses: clock at 0, device
sample rate 44100, no WAV fallback files. -/
def envW : Env := { currentTime := 0, sampleRate := 44100, fetchWav := fun _ => none }

/-- A concrete all-zero wavetable blob (100 silent melodic waves, no
drum region). -/
def blobW : Blob := { len := 25600, byte := fun _ => 0 }

/-- A fresh engine that has loaded `blobW`. -/
def sW : EngineState := { initialState with wavetable := some blobW }

/-- A live melodic voice used to pre-populate witness states. -/
def voiceW : Voice :=
  { isDrum := false, keyNumber := 5, startTime := 0, loop := true, playbackRate := 1
    rateRampTargets := [], panValue := 0, panRamps := [], gainEvents := []
    startCalls := [0], stopCalls := [] }

/-- State `sW` with `voiceW` sounding on key 5. -/
def sActiveW : EngineState :=
  { sW with nextId := 1, voices := [(0, voiceW)], activeNotes := [(5, 0)] }

/-- State `sW` with one parsed 8-bit drum of 2 samples. -/
def sDrumW : EngineState :=
  { sW with drums := [{ filePos := 25600, chunkSize := 2, bits := 8, sampleRate := 8000 }] }

/-- A truncated wavetable blob: 25600 zero bytes, then the four bytes
`'WAVE'` and three further bytes, so the drum scan finds the tag but
the following `getUint32` crosses the end of the buffer. -/
def blobT : Blob :=
  { len := 25607
    byte := fun i =>
      if i = 25600 then 87 else if i = 25601 then 65
      else if i = 25602 then 86 else if i = 25603 then 69 else 0 }

/-- A drum voice present in the heap of a witness state. -/
def voiceDW : Voice := { voiceW with isDrum := true }

/-- State `sW` with the drum voice `voiceDW` in the heap (drums are not
key-mapped). -/
def sDrumHeapW : EngineState := { sW with nextId := 1, voices := [(0, voiceDW)] }

theorem jsRound_eq (q : ℚ) : jsRound q = ⌊q + 1 / 2⌋ := by
  rw [jsRound, Rat.floor_def' (q + 1 / 2), Rat.floor_def]

theorem jsRound_natCast_div_six (m : ℕ) :
    jsRound ((m : ℚ) / 6) = ((m + 3) / 6 : ℕ) := by
  rw [jsRound_eq]
  have h : (m : ℚ) / 6 + 1 / 2 = ((m + 3 : ℕ) : ℚ) / ((6 : ℕ) : ℚ) := by
    push_cast; ring
  rw [h, Rat.floor_natCast_div_natCast]; omega

theorem jsRem_natCast (m b : ℕ) : jsRem (m : ℤ) (b : ℤ) = ((m % b : ℕ) : ℤ) := by
  rw [jsRem, if_pos (by positivity)]; omega

theorem fdiv_natCast (m b : ℕ) : Int.fdiv (m : ℤ) (b : ℤ) = ((m / b : ℕ) : ℤ) := by
  rw [Int.fdiv_eq_ediv _ (by positivity)]; omega

theorem melodicFreq_natCast (k : ℕ) (hk : k < 576) :
    melodicFreq (k : ℤ) 0 = (rateNum k : ℚ) / 1024 := by
  rw [melodicFreq]
  have hoct : Int.fdiv (k : ℤ) (NOTES_PER_OCTAVE : ℤ) = ((k / 72 : ℕ) : ℤ) := by
    rw [show (NOTES_PER_OCTAVE : ℤ) = ((72 : ℕ) : ℤ) from rfl, fdiv_natCast]
  have hmicro : jsRem (k : ℤ) (NOTES_PER_OCTAVE : ℤ) = ((k % 72 : ℕ) : ℤ) := by
    rw [show (NOTES_PER_OCTAVE : ℤ) = ((72 : ℕ) : ℤ) from rfl, jsRem_natCast]
  rw [hoct, hmicro]
  rw [show (((k % 72 : ℕ) : ℤ) : ℚ) = ((k % 72 : ℕ) : ℚ) from by norm_cast]
  rw [jsRound_natCast_div_six]
  rw [show jsRem ((((k % 72 + 3) / 6 : ℕ)) : ℤ) 12 = (((((k % 72 + 3) / 6) % 12 : ℕ)) : ℤ) from by
    rw [show (12 : ℤ) = ((12 : ℕ) : ℤ) from rfl, jsRem_natCast]]
  have hpc : jsMax 0 (jsMin 11 ((((k % 72 + 3) / 6) % 12 : ℕ) : ℤ)) = ((pcN k : ℕ) : ℤ) := by
    rw [jsMax, jsMin, pcN]
    split_ifs <;> omega
  have hoc : jsMax 0 (jsMin 7 ((k / 72 : ℕ) : ℤ)) = ((k / 72 : ℕ) : ℤ) := by
    rw [jsMax, jsMin]
    split_ifs <;> omega
  rw [hpc, hoc]
  have htn : ((pcN k : ℕ) : ℤ).toNat = pcN k := Int.toNat_natCast _
  have htn2 : ((k / 72 : ℕ) : ℤ).toNat = k / 72 := Int.toNat_natCast _
  rw [htn, htn2]
  have ho7 : k / 72 ≤ 7 := by omega
  have hper : (periodSizes.getD (k / 72) 0 : ℚ) = ((2 ^ (10 - k / 72) : ℕ) : ℚ) := by
    interval_cases h : (k / 72) <;> norm_num [periodSizes]
  rw [hper, rateNum]
  have h2 : ((2 ^ (10 - k / 72) : ℕ) : ℚ) ≠ 0 := by positivity
  rw [div_eq_div_iff h2 (by norm_num)]
  push_cast
  have hpow : (2 : ℚ) ^ (k / 72) * 2 ^ (10 - k / 72) = 1024 := by
    rw [← pow_add]
    have h10 : k / 72 + (10 - k / 72) = 10 := by omega
    rw [h10]; norm_num
  linear_combination (-(basePointFreqs.getD (pcN k) 0 : ℚ)) * hpow

set_option maxRecDepth 100000 in
theorem rateNum_pos : ∀ k : ℕ, k < 576 → 0 < rateNum k := by decide

set_option maxRecDepth 100000 in
theorem rateNum_mono : ∀ k : ℕ, k < 575 → k % 72 ≠ 68 → rateNum k ≤ rateNum (k + 1) := by
  decide

theorem jsRound_nonpos (q : ℚ) (h : q < 1 / 2) : jsRound q ≤ 0 := by
  rw [jsRound_eq]
  have h1 : (q + 1 / 2 : ℚ) < ((1 : ℤ) : ℚ) := by push_cast; linarith
  have := Int.floor_lt.mpr h1
  omega

theorem jsRem_nonpos (a b : ℤ) (ha : a ≤ 0) (hb : b ≠ 0) : jsRem a b ≤ 0 := by
  rw [jsRem]
  split_ifs with h
  · have haz : a = 0 := le_antisymm ha h
    simp [haz]
  · have := Int.emod_nonneg (-a) hb
    omega

theorem clamp_zero_of_nonpos (x c : ℤ) (hx : x ≤ 0) (hc : 0 ≤ c) :
    jsMax 0 (jsMin c x) = 0 := by
  rw [jsMax, jsMin]; split_ifs <;> omega

/-- For any key `k ≤ 0` the melodic branch clamps both the octave and
the pitch class to `0`, so the result is that of key `0`. -/
theorem melodicFreq_nonpos_key (k : ℤ) (hk : k ≤ 0) (fa : ℚ) :
    melodicFreq k fa = melodicFreq 0 fa := by
  have main : ∀ j : ℤ, j ≤ 0 →
      melodicFreq j fa = ((33408 : ℚ) + fa) / 1024 := by
    intro j hj
    rw [melodicFreq]
    have hoct : Int.fdiv j (NOTES_PER_OCTAVE : ℤ) ≤ 0 := by
      rw [Int.fdiv_eq_ediv _ (by norm_num [NOTES_PER_OCTAVE])]
      have : (NOTES_PER_OCTAVE : ℤ) = 72 := rfl
      rw [this]
      omega
    have hmicro : jsRem j (NOTES_PER_OCTAVE : ℤ) ≤ 0 :=
      jsRem_nonpos j _ hj (by norm_num [NOTES_PER_OCTAVE])
    have hround : jsRound ((jsRem j (NOTES_PER_OCTAVE : ℤ) : ℚ) / 6) ≤ 0 := by
      refine jsRound_nonpos _ ?_
      have : ((jsRem j (NOTES_PER_OCTAVE : ℤ) : ℚ)) ≤ 0 := by exact_mod_cast hmicro
      linarith
    have hpc : jsRem (jsRound ((jsRem j (NOTES_PER_OCTAVE : ℤ) : ℚ) / 6)) 12 ≤ 0 :=
      jsRem_nonpos _ 12 hround (by norm_num)
    rw [clamp_zero_of_nonpos _ 11 hpc (by norm_num),
      clamp_zero_of_nonpos _ 7 hoct (by norm_num)]
    norm_num [basePointFreqs, periodSizes]
  rw [main k hk, main 0 le_rfl]

/-- For any key `k ≤ 0` the drum branch clamps the derived drum key to
`0`, so the result is that of key `0`. -/
theorem drumFreq_nonpos_key (k : ℤ) (hk : k ≤ 0) : drumFreq k = drumFreq 0 := by
  have main : ∀ j : ℤ, j ≤ 0 → drumFreq j = 100 := by
    intro j hj
    rw [drumFreq]
    have hjq : ((j : ℚ)) ≤ 0 := by exact_mod_cast hj
    have hr : jsRound ((j : ℚ) / 6) ≤ 0 := jsRound_nonpos _ (by linarith)
    rw [clamp_zero_of_nonpos _ 255 hr (by norm_num)]
    norm_num
  rw [main k hk, main 0 le_rfl]

theorem clamp_top (x c : ℤ) (hx : c ≤ x) (hc : 0 ≤ c) : jsMax 0 (jsMin c x) = c := by
  rw [jsMax, jsMin]; split_ifs <;> omega

/-- For any key `k ≥ 576` the melodic branch clamps the octave to `7`
but keeps the microtonal position `k % 72`, so the result is that of
the in-range key `504 + (k % 72)`. -/
theorem melodicFreq_big_key (k : ℤ) (hk : 576 ≤ k) (fa : ℚ) :
    melodicFreq k fa = melodicFreq (504 + jsRem k 72) fa := by
  have hknn : 0 ≤ k := by omega
  have hm : jsRem k 72 = k % 72 := by rw [jsRem, if_pos hknn]
  have hmb : 0 ≤ k % 72 ∧ k % 72 < 72 := by omega
  rw [melodicFreq, melodicFreq]
  have hNOP : (NOTES_PER_OCTAVE : ℤ) = 72 := rfl
  rw [hNOP]
  have hoctL : Int.fdiv k 72 = k / 72 := Int.fdiv_eq_ediv _ (by norm_num)
  have hoctR : Int.fdiv (504 + jsRem k 72) 72 = 7 := by
    rw [Int.fdiv_eq_ediv _ (by norm_num), hm]
    omega
  have hmicroR : jsRem (504 + jsRem k 72) 72 = jsRem k 72 := by
    rw [hm, jsRem, if_pos (by omega)]
    omega
  rw [hoctL, hoctR, hmicroR]
  have hclampL : jsMax 0 (jsMin 7 (k / 72)) = 7 := clamp_top _ 7 (by omega) (by norm_num)
  have hclampR : jsMax 0 (jsMin 7 7) = 7 := clamp_top _ 7 le_rfl (by norm_num)
  rw [hclampL, hclampR]

/-- Claim C1 counterexample: the melodic playback rate is NOT
monotone non-decreasing in the raw key number: between keys 68 and 69
(still inside octave 0) the 72-EDO rounding wraps the pitch class from
11 back to 0, so the rate strictly drops. -/
theorem claim_C1_counterexample :
    calculatePlaybackRate 69 nameM00 false 0 44100 <
      calculatePlaybackRate 68 nameM00 false 0 44100 := by
  with_unfolding_all decide

/-- Claim C1 (amended): for keys `k ∈ [0,575]` with `freqAdjust = 0`
the melodic playback rate is strictly positive, and it is
non-decreasing from key `k` to key `k+1` except at the pitch-class
wrap keys (`k % 72 = 68`, where `round((k mod 72)/6)` reaches 12 and
wraps to pitch class 0 inside the same octave). -/
theorem claim_C1_rate_pos_and_monotone (sr : ℚ) (hsr : 0 < sr) :
    (∀ k : ℕ, k ≤ 575 → 0 < calculatePlaybackRate (k : ℤ) nameM00 false 0 sr) ∧
    (∀ k : ℕ, k < 575 → k % 72 ≠ 68 →
      calculatePlaybackRate (k : ℤ) nameM00 false 0 sr ≤
        calculatePlaybackRate ((k : ℤ) + 1) nameM00 false 0 sr) := by
  constructor
  · intro k hk
    rw [calculatePlaybackRate, if_neg (by simp), melodicFreq_natCast k (by omega)]
    have h1 : (0 : ℚ) < (rateNum k : ℚ) := by
      exact_mod_cast rateNum_pos k (by omega)
    positivity
  · intro k hk hw
    have hcast : ((k : ℤ) + 1) = ((k + 1 : ℕ) : ℤ) := by push_cast; ring
    rw [calculatePlaybackRate, calculatePlaybackRate, if_neg (by simp), if_neg (by simp),
      hcast, melodicFreq_natCast k (by omega), melodicFreq_natCast (k + 1) (by omega)]
    have h1 : (rateNum k : ℚ) ≤ (rateNum (k + 1) : ℚ) := by
      exact_mod_cast rateNum_mono k hk hw
    have h2 : (0 : ℚ) < 1024 := by norm_num
    gcongr

/-- Witness for `claim_C1_rate_pos_and_monotone` at device sample rate 44100. -/
theorem claim_C1_witness :
    (∀ k : ℕ, k ≤ 575 → 0 < calculatePlaybackRate (k : ℤ) nameM00 false 0 44100) ∧
    (∀ k : ℕ, k < 575 → k % 72 ≠ 68 →
      calculatePlaybackRate (k : ℤ) nameM00 false 0 44100 ≤
        calculatePlaybackRate ((k : ℤ) + 1) nameM00 false 0 44100) :=
  claim_C1_rate_pos_and_monotone 44100 (by norm_num)

/-- Claim C7 counterexample: `calculatePlaybackRate` does NOT return
the rate of the key clamped into `[0,575]`.  For key 600 the source
clamps the octave (to 7) and recomputes the pitch class from
`600 % 72 = 24`, giving pitch class 4, whereas the clamped key 575
yields pitch class 0: the two rates differ. -/
theorem claim_C7_counterexample :
    calculatePlaybackRate 600 nameM00 false 0 44100 ≠
      calculatePlaybackRate 575 nameM00 false 0 44100 := by
  with_unfolding_all decide

/-- Claim C7 (amended): `calculatePlaybackRate` is total (the model is
a total function, mirroring the source, which performs no throwing
operation), but the clamping is applied to the derived quantities, not
to the key: (1) for `k ≤ 0` both variants agree with key 0; (2) for
`k ≥ 576` the melodic variant agrees with the in-range key
`504 + (k % 72)` (octave clamped to 7, microtonal position kept); and
(3) the drum variant always equals the formula with the derived drum
key `round(k/6)` clamped into `[0,255]`. -/
theorem claim_C7_clamping (nm : List Char) (fa sr : ℚ) :
    (∀ k : ℤ, k ≤ 0 →
      calculatePlaybackRate k nm false fa sr = calculatePlaybackRate 0 nm false fa sr ∧
      calculatePlaybackRate k nm true fa sr = calculatePlaybackRate 0 nm true fa sr) ∧
    (∀ k : ℤ, 576 ≤ k →
      calculatePlaybackRate k nm false fa sr =
        calculatePlaybackRate (504 + jsRem k 72) nm false fa sr) ∧
    (∀ k : ℤ, calculatePlaybackRate k nm true fa sr =
      (((jsMax 0 (jsMin 255 (jsRound ((k : ℚ) / 6))) : ℤ) : ℚ) * 800 + 100) / BASE_SAMPLE_RATE) := by
  refine ⟨?_, ?_, ?_⟩
  · intro k hk
    constructor
    · rw [calculatePlaybackRate, calculatePlaybackRate, if_neg (by simp), if_neg (by simp),
        melodicFreq_nonpos_key k hk]
    · rw [calculatePlaybackRate, calculatePlaybackRate, if_pos rfl, if_pos rfl,
        drumFreq_nonpos_key k hk]
  · intro k hk
    rw [calculatePlaybackRate, calculatePlaybackRate, if_neg (by simp), if_neg (by simp),
      melodicFreq_big_key k hk]
  · intro k
    rfl

/-- Witness for `claim_C7_clamping` instantiated at keys `-5` and `600`. -/
theorem claim_C7_witness :
    (calculatePlaybackRate (-5) nameM00 false 0 44100 =
      calculatePlaybackRate 0 nameM00 false 0 44100) ∧
    (calculatePlaybackRate 600 nameM00 false 0 44100 =
      calculatePlaybackRate (504 + jsRem 600 72) nameM00 false 0 44100) := by
  have h := claim_C7_clamping nameM00 0 44100
  exact ⟨(h.1 (-5) (by norm_num)).1, h.2.1 600 (by norm_num)⟩

theorem mapGet_cons {κ α : Type} [DecidableEq κ] (p : κ × α) (rest : List (κ × α)) (k : κ) :
    mapGet (p :: rest) k = if k = p.1 then some p.2 else mapGet rest k := by
  rcases p with ⟨a, b⟩; rfl

theorem mapDelete_cons {κ α : Type} [DecidableEq κ] (p : κ × α) (rest : List (κ × α)) (k : κ) :
    mapDelete (p :: rest) k =
      if p.1 = k then mapDelete rest k else p :: mapDelete rest k := by
  rcases p with ⟨a, b⟩; rfl

theorem mapGet_replaceMap_self {κ α : Type} [DecidableEq κ] (m : List (κ × α)) (k : κ)
    (v : α) (w : α) (h : mapGet m k = some w) :
    mapGet (m.map fun p => if p.1 = k then (k, v) else p) k = some v := by
  induction m with
  | nil => rw [mapGet] at h; cases h
  | cons p rest ih =>
    rw [mapGet_cons] at h
    rw [List.map_cons]
    by_cases hk : k = p.1
    · have hfp : (if p.1 = k then (k, v) else p) = (k, v) := if_pos hk.symm
      rw [hfp, mapGet_cons, if_pos rfl]
    · have hfp : (if p.1 = k then (k, v) else p) = p := if_neg fun hc => hk hc.symm
      rw [if_neg hk] at h
      rw [hfp, mapGet_cons, if_neg hk]
      exact ih h

theorem mapGet_replaceMap_ne {κ α : Type} [DecidableEq κ] (m : List (κ × α)) (k k' : κ)
    (v : α) (h : k' ≠ k) :
    mapGet (m.map fun p => if p.1 = k then (k, v) else p) k' = mapGet m k' := by
  induction m with
  | nil => rfl
  | cons p rest ih =>
    rw [List.map_cons]
    by_cases hk : p.1 = k
    · have hfp : (if p.1 = k then (k, v) else p) = (k, v) := if_pos hk
      have h2 : k' ≠ p.1 := by rw [hk]; exact h
      rw [hfp, mapGet_cons, mapGet_cons, if_neg h, if_neg h2]
      exact ih
    · have hfp : (if p.1 = k then (k, v) else p) = p := if_neg hk
      rw [hfp, mapGet_cons, mapGet_cons]
      by_cases hk' : k' = p.1
      · rw [if_pos hk', if_pos hk']
      · rw [if_neg hk', if_neg hk']
        exact ih

theorem mapGet_append_none {κ α : Type} [DecidableEq κ] (m₁ m₂ : List (κ × α)) (k : κ)
    (h : mapGet m₁ k = none) : mapGet (m₁ ++ m₂) k = mapGet m₂ k := by
  induction m₁ with
  | nil => rfl
  | cons p rest ih =>
    rw [mapGet_cons] at h
    by_cases hk : k = p.1
    · rw [if_pos hk] at h; cases h
    · rw [if_neg hk] at h
      rw [List.cons_append, mapGet_cons, if_neg hk]
      exact ih h

theorem mapGet_append_some {κ α : Type} [DecidableEq κ] (m₁ m₂ : List (κ × α)) (k : κ) (v : α)
    (h : mapGet m₁ k = some v) : mapGet (m₁ ++ m₂) k = some v := by
  induction m₁ with
  | nil => rw [mapGet] at h; cases h
  | cons p rest ih =>
    rw [mapGet_cons] at h
    rw [List.cons_append, mapGet_cons]
    by_cases hk : k = p.1
    · rw [if_pos hk] at h; rw [if_pos hk]; exact h
    · rw [if_neg hk] at h; rw [if_neg hk]; exact ih h

theorem mapGet_mapSet_self {κ α : Type} [DecidableEq κ] (m : List (κ × α)) (k : κ) (v : α) :
    mapGet (mapSet m k v) k = some v := by
  rw [mapSet]
  split_ifs with hs
  · rcases Option.isSome_iff_exists.mp hs with ⟨w, hw⟩
    exact mapGet_replaceMap_self m k v w hw
  · have hnone : mapGet m k = none := by
      cases hm : mapGet m k
      · rfl
      · rw [hm] at hs; exact absurd rfl hs
    rw [mapGet_append_none m _ k hnone, mapGet_cons, if_pos rfl]

theorem mapGet_mapSet_ne {κ α : Type} [DecidableEq κ] (m : List (κ × α)) (k k' : κ) (v : α)
    (h : k' ≠ k) : mapGet (mapSet m k v) k' = mapGet m k' := by
  rw [mapSet]
  split_ifs with hs
  · exact mapGet_replaceMap_ne m k k' v h
  · have hnone : mapGet m k = none := by
      cases hm : mapGet m k
      · rfl
      · rw [hm] at hs; exact absurd rfl hs
    cases hm : mapGet m k'
    · rw [mapGet_append_none m _ k' hm, mapGet_cons, if_neg h, mapGet]
    · exact mapGet_append_some m _ k' _ hm

theorem mapGet_mapDelete_self {κ α : Type} [DecidableEq κ] (m : List (κ × α)) (k : κ) :
    mapGet (mapDelete m k) k = none := by
  induction m with
  | nil => rfl
  | cons p rest ih =>
    rw [mapDelete_cons]
    by_cases hk : p.1 = k
    · rw [if_pos hk]; exact ih
    · rw [if_neg hk, mapGet_cons, if_neg (fun hc => hk hc.symm)]
      exact ih

theorem mapGet_mapDelete_ne {κ α : Type} [DecidableEq κ] (m : List (κ × α)) (k k' : κ)
    (h : k' ≠ k) : mapGet (mapDelete m k) k' = mapGet m k' := by
  induction m with
  | nil => rfl
  | cons p rest ih =>
    rw [mapDelete_cons, mapGet_cons]
    by_cases hk : p.1 = k
    · rw [if_pos hk]
      have : k' ≠ p.1 := by rw [hk]; exact h
      rw [if_neg this]
      exact ih
    · rw [if_neg hk, mapGet_cons]
      by_cases hk' : k' = p.1
      · rw [if_pos hk', if_pos hk']
      · rw [if_neg hk', if_neg hk']
        exact ih

theorem mapGet_none_of_keys {κ α : Type} [DecidableEq κ] (m : List (κ × α)) (k : κ)
    (h : ∀ p ∈ m, p.1 ≠ k) : mapGet m k = none := by
  induction m with
  | nil => rfl
  | cons p rest ih =>
    have hp : p.1 ≠ k := h p (by simp)
    rw [mapGet_cons, if_neg (fun hc => hp hc.symm)]
    exact ih fun q hq => h q (by simp [hq])

theorem mapGet_mem {κ α : Type} [DecidableEq κ] (m : List (κ × α)) (k : κ) (v : α)
    (h : mapGet m k = some v) : (k, v) ∈ m := by
  induction m with
  | nil => rw [mapGet] at h; cases h
  | cons p rest ih =>
    rw [mapGet_cons] at h
    by_cases hk : k = p.1
    · rw [if_pos hk] at h
      cases h
      rcases p with ⟨a, b⟩
      rw [hk]
      exact List.mem_cons_self _ _
    · rw [if_neg hk] at h
      exact List.mem_cons_of_mem _ (ih h)

theorem mapSet_keys_prop {κ α : Type} [DecidableEq κ] (m : List (κ × α)) (k : κ) (v : α)
    (P : κ → Prop) (hm : ∀ p ∈ m, P p.1) (hk : P k) :
    ∀ p ∈ mapSet m k v, P p.1 := by
  intro p hp
  rw [mapSet] at hp
  split_ifs at hp with hs
  · rcases List.mem_map.mp hp with ⟨q, hq, hEq⟩
    by_cases hq1 : q.1 = k
    · rw [if_pos hq1] at hEq
      rw [← hEq]
      exact hk
    · rw [if_neg hq1] at hEq
      rw [← hEq]
      exact hm q hq
  · rcases List.mem_append.mp hp with hmem | hmem
    · exact hm p hmem
    · simp only [List.mem_singleton] at hmem
      rw [hmem]
      exact hk

theorem mapDelete_sublist_prop {κ α : Type} [DecidableEq κ] (m : List (κ × α)) (k : κ)
    (P : κ × α → Prop) (hm : ∀ p ∈ m, P p) : ∀ p ∈ mapDelete m k, P p := by
  induction m with
  | nil => intro p hp; rw [mapDelete] at hp; cases hp
  | cons q rest ih =>
    intro p hp
    rw [mapDelete_cons] at hp
    by_cases hq : q.1 = k
    · rw [if_pos hq] at hp
      exact ih (fun r hr => hm r (List.mem_cons_of_mem _ hr)) p hp
    · rw [if_neg hq] at hp
      rcases List.mem_cons.mp hp with hp1 | hp1
      · rw [hp1]; exact hm q (List.mem_cons_self _ _)
      · exact ih (fun r hr => hm r (List.mem_cons_of_mem _ hr)) p hp1

/-- Lemma: `loadSample` only touches the sample cache: voices, the key map,
the allocator, the wavetable, drums and the glissando state are
untouched. -/
theorem loadSample_preserves (env : Env) (s : EngineState) (n : List Char) :
    (loadSample env s n).1.voices = s.voices ∧
    (loadSample env s n).1.activeNotes = s.activeNotes ∧
    (loadSample env s n).1.nextId = s.nextId ∧
    (loadSample env s n).1.currentGlissandoNote = s.currentGlissandoNote ∧
    (loadSample env s n).1.currentGlissandoKey = s.currentGlissandoKey := by
  rw [loadSample]
  repeat' split
  all_goals simp

/-- Claim C10: `stopNote` on a key that has no entry in the
active-note map does nothing: the whole engine state (in particular
the active-note map, the loaded-sample cache and the master gain) is
returned unchanged, and no exception path exists (the model is a total
function). -/
theorem claim_C10_stopNote_absent_key (env : Env) (s : EngineState) (keyNumber : ℤ)
    (h : mapGet s.activeNotes keyNumber = none) : stopNote env s keyNumber = s := by
  rw [stopNote, h]

/-- Witness for `claim_C10_stopNote_absent_key`: a fresh engine has no
entry on key 5. -/
theorem claim_C10_witness :
    mapGet initialState.activeNotes (5 : ℤ) = none ∧
    stopNote envW initialState 5 = initialState :=
  ⟨rfl, claim_C10_stopNote_absent_key envW initialState 5 rfl⟩

/-- Claim C6: with looping enabled and `loopStart < loopEnd`, every
cursor measure `m ≥ loopEnd` fetches the notes of measure
`loopStart + ((m - loopStart) % (loopEnd - loopStart))`; in
particular, for `loopStart = 0, loopEnd = 4`, the cursor at measure 5
fetches the notes of measure 1. -/
theorem claim_C6_loop_wraparound :
    (∀ (getNotes : ℕ → List ℕ) (loopStart loopEnd m : ℕ),
      loopStart < loopEnd → loopEnd ≤ m →
      fetchedNotesForMeasure getNotes true loopStart loopEnd m =
        getNotes (loopStart + (m - loopStart) % (loopEnd - loopStart))) ∧
    fetchedNotesForMeasure (fun n => [n]) true 0 4 5 = [1] := by
  constructor
  · intro getNotes ls le m hlt hle
    rw [fetchedNotesForMeasure, displayMeasure, if_pos ⟨rfl, hle⟩]
  · rfl

/-- Witness for `claim_C6_loop_wraparound` at `loopStart = 0,
loopEnd = 4, m = 5`. -/
theorem claim_C6_witness :
    (0 : ℕ) < 4 ∧ (4 : ℕ) ≤ 5 ∧
    fetchedNotesForMeasure (fun n => [n]) true 0 4 5 = [0 + (5 - 0) % (4 - 0)] :=
  ⟨by norm_num, by norm_num,
    claim_C6_loop_wraparound.1 (fun n => [n]) 0 4 5 (by norm_num) (by norm_num)⟩

/-- Claim C8 counterexample: on the truncated blob `blobT` the drum
scan raises a (caught) `RangeError`, `loadWavetable` returns `false` —
but the store does NOT degrade to "no drum/melodic data": the melodic
wavetable region was installed before the parse failed, and
`loadSample` happily produces a melodic buffer from it. -/
theorem claim_C8_counterexample :
    (loadWavetable initialState (some blobT)).2 = false ∧
    (loadWavetable initialState (some blobT)).1.wavetable.isSome = true ∧
    ((loadSample envW (loadWavetable initialState (some blobT)).1 nameM00).2).isSome = true := by
  refine ⟨?_, ?_, ?_⟩ <;> with_unfolding_all decide

/-- Claim C8 (amended): a failed fetch makes `loadWavetable` return
`false` with the state untouched (a fresh store then has no drum or
melodic data), and `playNote` with a sample buffer that cannot be
produced starts no voice and returns normally (the result state is
exactly the post-retire/post-cache state, with no voice allocated).
A parse failure also returns `false` without throwing, but data read
before the failure stays available (see `claim_C8_counterexample`). -/
theorem claim_C8_load_failure_degrades :
    (∀ s : EngineState, loadWavetable s none = (s, false)) ∧
    (∀ (env : Env) (s : EngineState) (keyNumber velocity : ℤ) (sampleName : List Char)
      (pan when duration : ℚ) (pipi : Option ℤ) (volumeAutomation : Option (List VolPoint))
      (panAutomation : Option (List PanPoint)) (freqAdjust : ℚ) (tickDuration : Option ℚ),
      (loadSample env (retireExistingNote s keyNumber) sampleName).2 = none →
      playNote env s keyNumber velocity sampleName false pan when duration pipi
          volumeAutomation panAutomation freqAdjust tickDuration =
        ((loadSample env (retireExistingNote s keyNumber) sampleName).1, none)) := by
  constructor
  · intro s; rfl
  · intro env s keyNumber velocity sampleName pan when duration pipi va pa fa td h
    rcases hl : loadSample env (retireExistingNote s keyNumber) sampleName with ⟨s2, b⟩
    rw [hl] at h
    simp only at h
    subst h
    rw [playNote, if_neg (by simp)]
    simp only [hl]

/-- Witness for `claim_C8_load_failure_degrades`: a fresh engine (no
wavetable, no fallback files) cannot produce any buffer, so `playNote`
starts nothing. -/
theorem claim_C8_witness :
    (loadSample envW (retireExistingNote initialState 5) nameM00).2 = none ∧
    playNote envW initialState 5 100 nameM00 false 0 1 2 none none none 0 none =
      ((loadSample envW (retireExistingNote initialState 5) nameM00).1, none) :=
  ⟨by with_unfolding_all decide,
    claim_C8_load_failure_degrades.2 envW initialState 5 100 nameM00 0 1 2 none none none 0 none
      (by with_unfolding_all decide)⟩

/-- Claim C4: whenever `playNote` (non-glissando) starts a voice for a
note of velocity `v`, the gain applied to the voice at its start time
is `Math.pow(10, ((v*ORG_VELOCITY_SCALE - 255) * 8) / 2000)`, and with
`ORG_VELOCITY_SCALE = 2` this is exactly the claimed
`10^(((v*2 - 255) * 8) / 2000)` as a real number. -/
theorem claim_C4_initial_gain (env : Env) (s : EngineState) (keyNumber velocity : ℤ)
    (sampleName : List Char) (pan when duration : ℚ) (pipi : Option ℤ)
    (va : Option (List VolPoint)) (pa : Option (List PanPoint)) (fa : ℚ) (td : Option ℚ)
    (hv0 : 0 ≤ velocity) (hv1 : velocity ≤ 127) (nid : ℕ) (nv : Voice)
    (h : (playNote env s keyNumber velocity sampleName false pan when duration pipi
        va pa fa td).2 = some (nid, nv)) :
    GainEvent.setValue nv.startTime
        (.pow10 ((((velocity * ORG_VELOCITY_SCALE - 255) * 8 : ℤ) : ℚ) / 2000)) ∈
      nv.gainEvents ∧
    (10 : ℝ) ^ (((((velocity * ORG_VELOCITY_SCALE - 255) * 8 : ℤ) : ℚ) / 2000 : ℚ) : ℝ) =
      (10 : ℝ) ^ ((((velocity : ℝ) * 2 - 255) * 8) / 2000) := by
  constructor
  · rw [playNote, if_neg (by simp)] at h
    rcases hl : loadSample env (retireExistingNote s keyNumber) sampleName with ⟨s2, b⟩
    simp only [hl] at h
    rcases b with _ | buf
    · cases h
    · by_cases hdrum : isDrumName sampleName = true
      · simp only [hdrum, if_true] at h
        injection h with hpair
        injection hpair with h1 h2
        subst h2
        simp
      · simp only [hdrum, if_false] at h
        rcases hss : pipiSelfStop env keyNumber sampleName (jsOrQ when env.currentTime)
            duration (pipi.getD 0) fa with _ | t
        all_goals (
          simp only [hss] at h
          by_cases hdur : 0 < duration
          · simp only [hdur, if_true] at h
            injection h with hpair
            injection hpair with h1 h2
            subst h2
            simp
          · simp only [hdur, if_false] at h
            injection h with hpair
            injection hpair with h1 h2
            subst h2
            simp)
  · congr 1
    simp only [ORG_VELOCITY_SCALE]
    push_cast
    ring

/-- Witness for `claim_C4_initial_gain`: a concrete note at velocity
100 on the loaded engine `sW`. -/
theorem claim_C4_witness :
    ((playNote envW sW 5 100 nameM00 false 0 1 2 none none none 0 none).2).isSome = true ∧
    (∀ p, (playNote envW sW 5 100 nameM00 false 0 1 2 none none none 0 none).2 = some p →
      GainEvent.setValue p.2.startTime
          (.pow10 ((((100 * ORG_VELOCITY_SCALE - 255) * 8 : ℤ) : ℚ) / 2000)) ∈
        p.2.gainEvents) := by
  refine ⟨by with_unfolding_all decide, ?_⟩
  intro p hp
  exact (claim_C4_initial_gain envW sW 5 100 nameM00 0 1 2 none none none 0 none
    (by norm_num) (by norm_num) p.1 p.2 (by rw [hp])).1

/-- Claim C9 counterexample: a melodic note of duration 1 s (far above
the claimed 50 ms threshold) is started WITHOUT any linear attack
ramp: every gain event scheduled for its voice is an instantaneous
`setValueAtTime` (the source comment at src/js/AudioEngine.js:323 even
says "Set volume immediately"). -/
theorem claim_C9_counterexample :
    ((playNote envW sW 5 100 nameM00 false 0 1 1 none none none 0 none).2.map
      (fun p => p.2.gainEvents.all fun e => !e.isRamp)) = some true ∧
    (50 : ℚ) / 1000 ≤ 1 := by
  constructor
  · with_unfolding_all decide
  · norm_num

/-- Claim C9 (amended): no attack ramp exists.  Every voice started by
a non-glissando `playNote` without volume automation has only
instantaneous (`setValueAtTime`) gain events — regardless of the
note's duration — and its gain at the start time is set instantly to
the authentic volume.  (The only linear gain ramps the source ever
schedules come from the first volume-automation breakpoint.) -/
theorem claim_C9_no_attack_ramp (env : Env) (s : EngineState) (keyNumber velocity : ℤ)
    (sampleName : List Char) (pan when duration : ℚ) (pipi : Option ℤ)
    (pa : Option (List PanPoint)) (fa : ℚ) (td : Option ℚ) (nid : ℕ) (nv : Voice)
    (h : (playNote env s keyNumber velocity sampleName false pan when duration pipi
        none pa fa td).2 = some (nid, nv)) :
    (∀ e ∈ nv.gainEvents, e.isRamp = false) ∧
    GainEvent.setValue nv.startTime
        (.pow10 ((((velocity * ORG_VELOCITY_SCALE - 255) * 8 : ℤ) : ℚ) / 2000)) ∈
      nv.gainEvents := by
  rw [playNote, if_neg (by simp)] at h
  rcases hl : loadSample env (retireExistingNote s keyNumber) sampleName with ⟨s2, b⟩
  simp only [hl] at h
  rcases b with _ | buf
  · cases h
  · by_cases hdrum : isDrumName sampleName = true
    · simp only [hdrum, if_true] at h
      injection h with hpair
      injection hpair with h1 h2
      subst h2
      constructor
      · simp [GainEvent.isRamp]
      · simp
    · simp only [hdrum, if_false] at h
      rcases hss : pipiSelfStop env keyNumber sampleName (jsOrQ when env.currentTime)
          duration (pipi.getD 0) fa with _ | t
      all_goals (
        simp only [hss] at h
        by_cases hdur : 0 < duration
        all_goals (
          simp only [hdur, if_true, if_false] at h
          injection h with hpair
          injection hpair with h1 h2
          subst h2
          constructor
          · simp [GainEvent.isRamp]
          · simp))

theorem claim_C9_witness :
    ((playNote envW sW 5 100 nameM00 false 0 1 1 none none none 0 none).2).isSome = true ∧
    (∀ p, (playNote envW sW 5 100 nameM00 false 0 1 1 none none none 0 none).2 = some p →
      (∀ e ∈ p.2.gainEvents, e.isRamp = false) ∧
      GainEvent.setValue p.2.startTime
          (.pow10 ((((100 * ORG_VELOCITY_SCALE - 255) * 8 : ℤ) : ℚ) / 2000)) ∈
        p.2.gainEvents) := by
  refine ⟨by with_unfolding_all decide, ?_⟩
  intro p hp
  exact claim_C9_no_attack_ramp envW sW 5 100 nameM00 0 1 1 none none 0 none p.1 p.2
    (by rw [hp])

/-- Claim C2 counterexample: starting a new melodic voice with an
explicit positive duration on an already-occupied key does start a
voice, but the key slot is NOT reassigned to it — `playNote` returns
early (src/js/AudioEngine.js:368-377) before the
`activeNotes.set(keyNumber, noteData)` of line 382, leaving the slot
empty. -/
theorem claim_C2_counterexample :
    ((playNote envW sActiveW 5 100 nameM00 false 0 1 2 none none none 0 none).2).isSome = true ∧
    mapGet (playNote envW sActiveW 5 100 nameM00 false 0 1 2 none none none 0
      none).1.activeNotes 5 = none := by
  constructor <;> with_unfolding_all decide

/-- Claim C2 (amended): starting a melodic voice on a key whose slot
holds a live melodic voice clears the old voice's loop flag (so it
finishes its current wave cycle and self-retires) and vacates the
slot; the slot is immediately reassigned to the new voice only when
the note has no explicit duration (`duration = 0`, the live-input
path) — for `duration > 0` the new voice is returned to the caller and
the slot is left empty. -/
theorem claim_C2_retire_and_reassign (env : Env) (s : EngineState) (keyNumber velocity : ℤ)
    (sampleName : List Char) (pan when duration : ℚ) (pipi : Option ℤ)
    (va : Option (List VolPoint)) (pa : Option (List PanPoint)) (fa : ℚ) (td : Option ℚ)
    (oldId : ℕ) (oldV : Voice)
    (hold : mapGet s.activeNotes keyNumber = some oldId)
    (holdv : mapGet s.voices oldId = some oldV)
    (holdm : oldV.isDrum = false)
    (hnd : isDrumName sampleName = false)
    (nid : ℕ) (nv : Voice)
    (h : (playNote env s keyNumber velocity sampleName false pan when duration pipi
        va pa fa td).2 = some (nid, nv)) :
    mapGet (playNote env s keyNumber velocity sampleName false pan when duration pipi
        va pa fa td).1.voices oldId = some { oldV with loop := false } ∧
    (0 < duration →
      mapGet (playNote env s keyNumber velocity sampleName false pan when duration pipi
          va pa fa td).1.activeNotes keyNumber = none) ∧
    (¬ 0 < duration →
      mapGet (playNote env s keyNumber velocity sampleName false pan when duration pipi
          va pa fa td).1.activeNotes keyNumber = some nid) := by
  have hret : retireExistingNote s keyNumber =
      { s with voices := mapSet s.voices oldId { oldV with loop := false }
               activeNotes := mapDelete s.activeNotes keyNumber } := by
    rw [retireExistingNote]
    simp only [hold, holdv, holdm, Bool.false_eq_true, if_false]
  rw [playNote, if_neg (by simp)] at h ⊢
  simp only [hret] at h ⊢
  rcases hl : loadSample env
      { s with voices := mapSet s.voices oldId { oldV with loop := false }
               activeNotes := mapDelete s.activeNotes keyNumber } sampleName with ⟨s2, b⟩
  have hpres := loadSample_preserves env
    { s with voices := mapSet s.voices oldId { oldV with loop := false }
             activeNotes := mapDelete s.activeNotes keyNumber } sampleName
  rw [hl] at hpres
  simp only at hpres
  simp only [hl] at h ⊢
  rcases b with _ | buf
  · cases h
  · simp only [hnd, Bool.false_eq_true, if_false] at h ⊢
    rcases hss : pipiSelfStop env keyNumber sampleName (jsOrQ when env.currentTime)
        duration (pipi.getD 0) fa with _ | t
    all_goals (
      simp only [hss] at h ⊢
      by_cases hdur : 0 < duration
      all_goals (
        simp only [hdur, if_true, if_false] at h ⊢
        injection h with hpair
        injection hpair with h1 h2
        refine ⟨?_, ?_, ?_⟩
        · exact mapGet_append_some _ _ oldId _
            (by rw [hpres.1]; exact mapGet_mapSet_self s.voices oldId _)
        · intro hd
          first
          | exact hd.elim
          | (rw [hpres.2.1]
             exact mapGet_mapDelete_self s.activeNotes keyNumber)
        · intro hnd2
          first
          | exact absurd trivial hnd2
          | (rw [← h1]
             exact mapGet_mapSet_self _ _ _)))

/-- Witness for `claim_C2_retire_and_reassign`: key 5 of `sActiveW`
holds the melodic `voiceW`; a new zero-duration melodic note takes
over the slot. -/
theorem claim_C2_witness :
    mapGet sActiveW.activeNotes 5 = some 0 ∧
    mapGet sActiveW.voices 0 = some voiceW ∧
    voiceW.isDrum = false ∧
    ((playNote envW sActiveW 5 100 nameM00 false 0 1 0 none none none 0 none).2).isSome = true ∧
    (∀ p, (playNote envW sActiveW 5 100 nameM00 false 0 1 0 none none none 0 none).2 = some p →
      mapGet (playNote envW sActiveW 5 100 nameM00 false 0 1 0 none none none 0
          none).1.voices 0 = some { voiceW with loop := false } ∧
      mapGet (playNote envW sActiveW 5 100 nameM00 false 0 1 0 none none none 0
          none).1.activeNotes 5 = some p.1) := by
  refine ⟨by with_unfolding_all decide, by with_unfolding_all decide, rfl,
    by with_unfolding_all decide, ?_⟩
  intro p hp
  have h := claim_C2_retire_and_reassign envW sActiveW 5 100 nameM00 0 1 0 none none none 0
    none 0 voiceW (by with_unfolding_all decide) (by with_unfolding_all decide) rfl rfl
    p.1 p.2 (by rw [hp])
  exact ⟨h.1, h.2.2 (by norm_num)⟩

theorem clamp_mem (x c : ℤ) (hc : 0 ≤ c) :
    0 ≤ jsMax 0 (jsMin c x) ∧ jsMax 0 (jsMin c x) ≤ c := by
  rw [jsMax, jsMin]
  split_ifs <;> omega

/-- With no frequency adjustment, the melodic "organya frequency" is
strictly positive for every key: both clamped table indices are in
range and every table entry is positive. -/
theorem melodicFreq_pos (k : ℤ) : 0 < melodicFreq k 0 := by
  rw [melodicFreq]
  have key : ∀ pc oct : ℤ, 0 ≤ pc → pc ≤ 11 → 0 ≤ oct → oct ≤ 7 →
      0 < ((basePointFreqs.getD pc.toNat 0 : ℚ) + 0) / (periodSizes.getD oct.toNat 0 : ℚ) := by
    intro pc oct h1 h2 h3 h4
    have hfN : ∀ i : ℕ, i ≤ 11 → 0 < basePointFreqs.getD i 0 := by decide
    have hpN : ∀ i : ℕ, i ≤ 7 → 0 < periodSizes.getD i 0 := by decide
    have hf : (0 : ℚ) < basePointFreqs.getD pc.toNat 0 := by
      exact_mod_cast hfN pc.toNat (by omega)
    have hp : (0 : ℚ) < periodSizes.getD oct.toNat 0 := by
      exact_mod_cast hpN oct.toNat (by omega)
    rw [add_zero]
    exact div_pos hf hp
  exact key _ _ (clamp_mem _ 11 (by norm_num)).1 (clamp_mem _ 11 (by norm_num)).2
    (clamp_mem _ 7 (by norm_num)).1 (clamp_mem _ 7 (by norm_num)).2

/-- The melodic playback rate is positive for every key when
`freqAdjust = 0` and the device sample rate is positive. -/
theorem melodicRate_pos (keyNumber : ℤ) (sampleName : List Char) (sr : ℚ) (hsr : 0 < sr) :
    0 < calculatePlaybackRate keyNumber sampleName false 0 sr := by
  rw [calculatePlaybackRate, if_neg (by simp)]
  have := melodicFreq_pos keyNumber
  positivity

/-- With `freqAdjust = 0`, a positive pipi value and a positive device
sample rate, the finite-loop duration is strictly positive. -/
theorem pipiLoopDuration_pos (env : Env) (keyNumber : ℤ) (sampleName : List Char)
    (n : ℤ) (hn : 0 < n) (hsr : 0 < env.sampleRate) :
    0 < pipiLoopDuration env keyNumber sampleName n 0 := by
  rw [pipiLoopDuration]
  have hoct : ∀ i : ℕ, i ≤ 7 → 0 < octSizes.getD i 0 := by decide
  have hidx : (jsMin (Int.fdiv keyNumber (NOTES_PER_OCTAVE : ℤ)) 7).toNat ≤ 7 := by
    rw [jsMin]
    split_ifs <;> omega
  have h1 : (0 : ℚ) < octSizes.getD (jsMin (Int.fdiv keyNumber (NOTES_PER_OCTAVE : ℤ))
      7).toNat 0 := by
    exact_mod_cast hoct _ hidx
  have h2 : (0 : ℚ) < (n : ℚ) := by exact_mod_cast hn
  have h3 := melodicRate_pos keyNumber sampleName env.sampleRate hsr
  positivity

/-- Claim C5: finite-loop ("pipi") behaviour of a melodic voice, for an
in-range key and `freqAdjust = 0`.  The voice's buffer always loops;
with `pipi = n > 0` the loop duration is
`256 * (octSizes[min(⌊key/72⌋, 7)] * n) / (sampleRate * playbackRate)`,
and exactly when it is shorter than the note's nominal duration the
source schedules the self-stop: the gain is zeroed and `source.stop`
is called at `startTime + loopDuration` (the later duration stop is
also issued, as in the source); otherwise the only stop is the
explicit one at `startTime + duration` (none at all if `duration = 0`).
With `pipi` absent or `0` the voice loops until an explicit stop. -/
theorem claim_C5_pipi_looping (env : Env) (s : EngineState) (keyNumber velocity : ℤ)
    (sampleName : List Char) (pan when duration : ℚ) (pipi : Option ℤ)
    (va : Option (List VolPoint)) (pa : Option (List PanPoint)) (td : Option ℚ)
    (hk : 0 ≤ keyNumber) (hnd : isDrumName sampleName = false) (hsr : 0 < env.sampleRate)
    (nid : ℕ) (nv : Voice)
    (h : (playNote env s keyNumber velocity sampleName false pan when duration pipi
        va pa 0 td).2 = some (nid, nv)) :
    nv.loop = true ∧
    (0 < pipi.getD 0 →
      (pipiLoopDuration env keyNumber sampleName (pipi.getD 0) 0 =
        (256 * ((octSizes.getD (jsMin (Int.fdiv keyNumber (NOTES_PER_OCTAVE : ℤ))
            7).toNat 0 : ℚ) * (pipi.getD 0 : ℚ))) /
          (env.sampleRate * calculatePlaybackRate keyNumber sampleName false 0
            env.sampleRate)) ∧
      (pipiLoopDuration env keyNumber sampleName (pipi.getD 0) 0 < duration →
        nv.stopCalls = [nv.startTime + pipiLoopDuration env keyNumber sampleName
            (pipi.getD 0) 0, nv.startTime + duration] ∧
        GainEvent.setValue (nv.startTime + pipiLoopDuration env keyNumber sampleName
            (pipi.getD 0) 0) .zero ∈ nv.gainEvents) ∧
      (¬ pipiLoopDuration env keyNumber sampleName (pipi.getD 0) 0 < duration →
        nv.stopCalls = if 0 < duration then [nv.startTime + duration] else [])) ∧
    (pipi.getD 0 ≤ 0 →
      nv.stopCalls = if 0 < duration then [nv.startTime + duration] else []) := by
  have hidx0 : ¬ jsMin (Int.fdiv keyNumber (NOTES_PER_OCTAVE : ℤ)) 7 < 0 := by
    have : 0 ≤ Int.fdiv keyNumber (NOTES_PER_OCTAVE : ℤ) := by
      rw [Int.fdiv_eq_ediv _ (by norm_num [NOTES_PER_OCTAVE])]
      have h72 : (NOTES_PER_OCTAVE : ℤ) = 72 := rfl
      rw [h72]
      omega
    rw [jsMin]
    split_ifs <;> omega
  have hden : ¬ env.sampleRate * calculatePlaybackRate keyNumber sampleName false 0
      env.sampleRate = 0 := by
    have := melodicRate_pos keyNumber sampleName env.sampleRate hsr
    positivity
  rw [playNote, if_neg (by simp)] at h
  rcases hl : loadSample env (retireExistingNote s keyNumber) sampleName with ⟨s2, b⟩
  simp only [hl] at h
  rcases b with _ | buf
  · cases h
  · simp only [hnd, Bool.false_eq_true, if_false] at h
    by_cases hp : 0 < pipi.getD 0
    · have hLD := pipiLoopDuration_pos env keyNumber sampleName (pipi.getD 0) hp hsr
      have hss : pipiSelfStop env keyNumber sampleName (jsOrQ when env.currentTime)
          duration (pipi.getD 0) 0 =
          if pipiLoopDuration env keyNumber sampleName (pipi.getD 0) 0 < duration then
            some (jsOrQ when env.currentTime +
              pipiLoopDuration env keyNumber sampleName (pipi.getD 0) 0)
          else none := by
        rw [pipiSelfStop, if_pos hp, if_neg hidx0, if_neg hden]
      by_cases hLDd : pipiLoopDuration env keyNumber sampleName (pipi.getD 0) 0 < duration
      · have hdur : 0 < duration := lt_trans hLD hLDd
        rw [hss, if_pos hLDd] at h
        simp only [hdur, if_true] at h
        injection h with hpair
        injection hpair with h1 h2
        subst h2
        refine ⟨rfl, fun _ => ⟨by rw [pipiLoopDuration], ?_, ?_⟩, fun hc => absurd hp (by omega)⟩
        · intro _
          constructor
          · simp
          · simp
        · intro hc
          exact absurd hLDd hc
      · rw [hss, if_neg hLDd] at h
        by_cases hdur : 0 < duration
        all_goals (
          simp only [hdur, if_true, if_false] at h
          injection h with hpair
          injection hpair with h1 h2
          subst h2
          refine ⟨rfl, fun _ => ⟨by rw [pipiLoopDuration], ?_, ?_⟩,
            fun hc => absurd hp (by omega)⟩
          · intro hc
            exact absurd hc hLDd
          · intro _
            simp [hdur])
    · have hss : pipiSelfStop env keyNumber sampleName (jsOrQ when env.currentTime)
          duration (pipi.getD 0) 0 = none := by
        rw [pipiSelfStop, if_neg hp]
      rw [hss] at h
      by_cases hdur : 0 < duration
      all_goals (
        simp only [hdur, if_true, if_false] at h
        injection h with hpair
        injection hpair with h1 h2
        subst h2
        exact ⟨rfl, fun hc => absurd hc hp, fun _ => by simp [hdur]⟩)

/-- Witness for `claim_C5_pipi_looping`: key 144 (octave 2), `pipi = 1`,
duration 1 s on the loaded engine `sW`. -/
theorem claim_C5_witness :
    ((playNote envW sW 144 100 nameM00 false 0 1 1 (some 1) none none 0 none).2).isSome = true ∧
    (∀ p, (playNote envW sW 144 100 nameM00 false 0 1 1 (some 1) none none 0 none).2 = some p →
      p.2.loop = true ∧
      (pipiLoopDuration envW 144 nameM00 1 0 < 1 →
        p.2.stopCalls = [p.2.startTime + pipiLoopDuration envW 144 nameM00 1 0,
          p.2.startTime + 1])) := by
  refine ⟨by with_unfolding_all decide, ?_⟩
  intro p hp
  have h := claim_C5_pipi_looping envW sW 144 100 nameM00 0 1 1 (some 1) none none none
    (by norm_num) rfl (by norm_num [envW]) p.1 p.2 (by rw [hp])
  exact ⟨h.1, fun hlt => ((h.2.1 (by norm_num)).2.1 hlt).1⟩

/-- The two possible outcomes of the existing-note handling of
`playNote` (lines 237-250): either nothing happens, or a live
non-drum voice is un-looped and its key entry deleted. -/
theorem retire_cases (s : EngineState) (key : ℤ) :
    retireExistingNote s key = s ∨
    ∃ vid vv, mapGet s.activeNotes key = some vid ∧ mapGet s.voices vid = some vv ∧
      vv.isDrum = false ∧
      retireExistingNote s key =
        { s with voices := mapSet s.voices vid { vv with loop := false }
                 activeNotes := mapDelete s.activeNotes key } := by
  rcases han : mapGet s.activeNotes key with _ | vid
  · left; rw [retireExistingNote]; simp only [han]
  · rcases hvv : mapGet s.voices vid with _ | vv
    · left; rw [retireExistingNote]; simp only [han, hvv]
    · by_cases hd : vv.isDrum = true
      · left; rw [retireExistingNote]; simp only [han, hvv, hd, if_true]
      · right
        refine ⟨vid, vv, rfl, hvv, by revert hd; cases vv.isDrum <;> simp, ?_⟩
        rw [retireExistingNote]
        simp only [han, hvv]
        rw [if_neg hd]

/-- Existing-note handling never touches a drum voice stored in the
heap. -/
theorem retire_preserves_drum (s : EngineState) (key : ℤ) (i : ℕ) (v : Voice)
    (hv : mapGet s.voices i = some v) (hd : v.isDrum = true) :
    mapGet (retireExistingNote s key).voices i = some v := by
  rcases retire_cases s key with hEq | ⟨vid, vv, han, hvv, hvvd, hEq⟩
  · rw [hEq]; exact hv
  · rw [hEq]
    by_cases hi : i = vid
    · subst hi
      rw [hv] at hvv
      injection hvv with he
      rw [← he] at hvvd
      rw [hd] at hvvd
      cases hvvd
    · exact (mapGet_mapSet_ne _ _ _ _ hi).trans hv

/-- Voice ids in the heap stay below the allocator after the
existing-note handling. -/
theorem retire_voices_keys (s : EngineState) (key : ℤ) (hwf : s.WF) :
    ∀ p ∈ (retireExistingNote s key).voices, p.1 < s.nextId := by
  rcases retire_cases s key with hEq | ⟨vid, vv, han, hvv, hvvd, hEq⟩
  · rw [hEq]; exact hwf.1
  · rw [hEq]
    exact mapSet_keys_prop _ _ _ (fun x => x < s.nextId) hwf.1
      (hwf.2 (key, vid) (mapGet_mem _ _ _ han))

/-- Voice ids in the key map stay below the allocator after the
existing-note handling. -/
theorem retire_active_keys (s : EngineState) (key : ℤ) (hwf : s.WF) :
    ∀ p ∈ (retireExistingNote s key).activeNotes, p.2 < s.nextId := by
  rcases retire_cases s key with hEq | ⟨vid, vv, han, hvv, hvvd, hEq⟩
  · rw [hEq]; exact hwf.2
  · rw [hEq]
    exact mapDelete_sublist_prop _ _ _ hwf.2

/-- Lemma: `updateGlissandoPitch` only ever ramps the glissando voice's
playback rate: every voice keeps its stop calls, gain events, start
calls and loop flag. -/
theorem updateGliss_preserves (env : Env) (s : EngineState) (key : ℤ) (name : List Char)
    (i : ℕ) (v : Voice) (hv : mapGet s.voices i = some v) :
    ∃ v', mapGet (updateGlissandoPitch env s key name).voices i = some v' ∧
      v'.stopCalls = v.stopCalls ∧ v'.gainEvents = v.gainEvents ∧
      v'.startCalls = v.startCalls ∧ v'.loop = v.loop := by
  rw [updateGlissandoPitch]
  rcases hg : s.currentGlissandoNote with _ | gid
  · exact ⟨v, hv, rfl, rfl, rfl, rfl⟩
  · simp only []
    rcases hgv : mapGet s.voices gid with _ | vg
    · simp only [hgv]
      rcases hgk : s.currentGlissandoKey with _ | gk
      all_goals (simp only [hgk]; exact ⟨v, hv, rfl, rfl, rfl, rfl⟩)
    · simp only [hgv]
      rcases hgk : s.currentGlissandoKey with _ | gk
      all_goals (
        simp only [hgk]
        by_cases hi : i = gid
        · subst hi
          rw [hv] at hgv
          injection hgv with he
          subst he
          exact ⟨_, mapGet_mapSet_self s.voices i _, rfl, rfl, rfl, rfl⟩
        · exact ⟨v, (mapGet_mapSet_ne _ _ _ _ hi).trans hv, rfl, rfl, rfl, rfl⟩)

/-- Lemma: `stopNote` leaves a voice alone (and keeps the key map clear of its
id) whenever its id is not mapped by any key. -/
theorem stopNote_keeps (env : Env) (st : EngineState) (k : ℤ) (nid : ℕ) (nv : Voice)
    (hv : mapGet st.voices nid = some nv) (hkeys : ∀ p ∈ st.activeNotes, p.2 ≠ nid) :
    mapGet (stopNote env st k).voices nid = some nv ∧
    (∀ p ∈ (stopNote env st k).activeNotes, p.2 ≠ nid) := by
  rw [stopNote]
  rcases han : mapGet st.activeNotes k with _ | vid
  · exact ⟨hv, hkeys⟩
  · simp only []
    have hvid : vid ≠ nid := hkeys (k, vid) (mapGet_mem _ _ _ han)
    rcases hgv : mapGet st.voices vid with _ | vv
    · simp only [hgv]
      exact ⟨hv, mapDelete_sublist_prop _ _ _ hkeys⟩
    · simp only [hgv]
      refine ⟨?_, ?_⟩
      · exact (mapGet_mapSet_ne _ _ _ _ (Ne.symm hvid)).trans hv
      · exact mapDelete_sublist_prop _ _ _ hkeys

/-- Folding `stopNote` over any key list (as `stopAllNotes` does)
never touches a voice whose id is not mapped. -/
theorem stopFold_keeps (env : Env) (ks : List ℤ) :
    ∀ (st : EngineState) (nid : ℕ) (nv : Voice),
      mapGet st.voices nid = some nv → (∀ p ∈ st.activeNotes, p.2 ≠ nid) →
      mapGet ((ks.foldl (fun st k => stopNote env st k) st)).voices nid = some nv := by
  induction ks with
  | nil => intro st nid nv hv _; exact hv
  | cons k rest ih =>
    intro st nid nv hv hkeys
    rw [List.foldl_cons]
    have h := stopNote_keeps env st k nid nv hv hkeys
    exact ih _ _ _ h.1 h.2

/-- Claim C3 counterexample, refuting "stopAllNotes is the only
operation that ends a drum voice before its natural end" in both
directions.  First half: a drum voice started by a plain (non-glissando)
`playNote` is never entered into the active-note map
(src/js/AudioEngine.js:381), and `stopAllNotes` only iterates that map,
so after the call no voice of the engine has any stop scheduled —
`stopAllNotes` does not end such a drum at all.  Second half: a
glissando-started drum becomes `currentGlissandoNote`
(src/js/AudioEngine.js:386-388); a second glissando `playNote` routes to
`updateGlissandoPitch`, whose `activeNotes.set` (line 413) aliases the
drum into the map, after which plain `stopNote` — not `stopAllNotes` —
ends it early (non-empty stop calls). -/
theorem claim_C3_counterexample :
    (((playNote envW sDrumW 10 100 nameD00 false 0 1 0 none none none 0 none).2.map
      (fun p => p.2.isDrum)) = some true ∧
    ((stopAllNotes envW (playNote envW sDrumW 10 100 nameD00 false 0 1 0 none none none 0
      none).1).voices.all fun p => p.2.stopCalls.isEmpty) = true) ∧
    ((stopNote envW (playNote envW (playNote envW sDrumW 10 100 nameD00 true 0 1 0 none
      none none 0 none).1 16 100 nameD00 true 0 1 0 none none none 0 none).1 16).voices.any
      fun p => p.2.isDrum && !p.2.stopCalls.isEmpty) = true := by
  refine ⟨⟨?_, ?_⟩, ?_⟩ <;> with_unfolding_all decide

/-- Claim C3 (amended): (1) No `playNote` call — on the same key or any
other, glissando or not — stops, cuts or retriggers a drum voice
already in the heap: its stop calls, gain events, start calls and loop
flag are all unchanged (a glissando update only retargets the playback
rate).  (2) A drum voice just started by a (non-glissando) `playNote`
on a well-formed engine has no stop scheduled at all, and the global
`stopAllNotes` applied then leaves it completely untouched, because
such drums are never entered into the active-note map.  (The one way a
drum does end early — glissando aliasing into the map followed by
`stopNote` — is exhibited by the counterexample.) -/
theorem claim_C3_drums_play_to_completion :
    (∀ (env : Env) (s : EngineState) (keyNumber velocity : ℤ) (sampleName : List Char)
      (isGlissando : Bool) (pan when duration : ℚ) (pipi : Option ℤ)
      (va : Option (List VolPoint)) (pa : Option (List PanPoint)) (fa : ℚ) (td : Option ℚ)
      (i : ℕ) (v : Voice),
      mapGet s.voices i = some v → v.isDrum = true →
      ∃ v', mapGet (playNote env s keyNumber velocity sampleName isGlissando pan when
          duration pipi va pa fa td).1.voices i = some v' ∧
        v'.stopCalls = v.stopCalls ∧ v'.gainEvents = v.gainEvents ∧
        v'.startCalls = v.startCalls ∧ v'.loop = v.loop) ∧
    (∀ (env : Env) (s : EngineState) (keyNumber velocity : ℤ) (sampleName : List Char)
      (pan when duration : ℚ) (pipi : Option ℤ) (va : Option (List VolPoint))
      (pa : Option (List PanPoint)) (fa : ℚ) (td : Option ℚ) (nid : ℕ) (nv : Voice),
      s.WF →
      (playNote env s keyNumber velocity sampleName false pan when duration pipi va pa fa
        td).2 = some (nid, nv) →
      nv.isDrum = true →
      nv.stopCalls = [] ∧
      mapGet (stopAllNotes env (playNote env s keyNumber velocity sampleName false pan
        when duration pipi va pa fa td).1).voices nid = some nv) := by
  constructor
  · intro env s keyNumber velocity sampleName isGlissando pan when duration pipi va pa fa
      td i v hv hd
    by_cases hcond : (isGlissando = true ∧ s.currentGlissandoNote.isSome = true)
    · rw [playNote, if_pos hcond]
      exact updateGliss_preserves env s keyNumber sampleName i v hv
    · rw [playNote, if_neg hcond]
      rcases hl : loadSample env (retireExistingNote s keyNumber) sampleName with ⟨s2, b⟩
      have hpres := loadSample_preserves env (retireExistingNote s keyNumber) sampleName
      rw [hl] at hpres
      simp only at hpres
      have hret : mapGet s2.voices i = some v := by
        rw [hpres.1]
        exact retire_preserves_drum s keyNumber i v hv hd
      simp only [hl]
      rcases b with _ | buf
      · exact ⟨v, hret, rfl, rfl, rfl, rfl⟩
      · by_cases hdrum : isDrumName sampleName = true
        · simp only [hdrum, if_true]
          exact ⟨v, mapGet_append_some _ _ _ _ hret, rfl, rfl, rfl, rfl⟩
        · simp only [hdrum, if_false]
          rcases hss : pipiSelfStop env keyNumber sampleName (jsOrQ when env.currentTime)
              duration (pipi.getD 0) fa with _ | t
          all_goals (
            simp only [hss]
            by_cases hdur : 0 < duration
            all_goals (
              simp only [hdur, if_true, if_false]
              exact ⟨v, mapGet_append_some _ _ _ _ hret, rfl, rfl, rfl, rfl⟩))
  · intro env s keyNumber velocity sampleName pan when duration pipi va pa fa td nid nv
      hwf h hdv
    rw [playNote, if_neg (by simp)] at h ⊢
    rcases hl : loadSample env (retireExistingNote s keyNumber) sampleName with ⟨s2, b⟩
    have hpres := loadSample_preserves env (retireExistingNote s keyNumber) sampleName
    rw [hl] at hpres
    simp only at hpres
    simp only [hl] at h ⊢
    rcases b with _ | buf
    · cases h
    · have hvkeys : ∀ p ∈ s2.voices, p.1 < s.nextId := by
        rw [hpres.1]
        exact retire_voices_keys s keyNumber hwf
      have hakeys : ∀ p ∈ s2.activeNotes, p.2 < s.nextId := by
        rw [hpres.2.1]
        exact retire_active_keys s keyNumber hwf
      have hnext : s2.nextId = s.nextId := by
        rcases retire_cases s keyNumber with hEq | ⟨_, _, _, _, _, hEq⟩ <;>
          rw [hpres.2.2.1, hEq]
      by_cases hdrum : isDrumName sampleName = true
      · simp only [hdrum, if_true] at h ⊢
        injection h with hpair
        injection hpair with h1 h2
        subst h2
        refine ⟨rfl, ?_⟩
        rw [stopAllNotes]
        rw [← h1]
        apply stopFold_keeps
        · dsimp only
          rw [mapGet_append_none _ _ _ (mapGet_none_of_keys _ _
            (fun p hp => by have h3 := hvkeys p hp; omega))]
          rw [mapGet_cons]
          rw [if_pos rfl]
        · dsimp only
          intro p hp
          have h3 := hakeys p hp
          omega
      · simp only [hdrum, if_false] at h
        rcases hss : pipiSelfStop env keyNumber sampleName (jsOrQ when env.currentTime)
            duration (pipi.getD 0) fa with _ | t
        all_goals (
          simp only [hss] at h
          by_cases hdur : 0 < duration
          all_goals (
            simp only [hdur, if_true, if_false] at h
            injection h with hpair
            injection hpair with h1 h2
            rw [← h2] at hdv
            simp at hdv))

/-- Witness for `claim_C3_drums_play_to_completion`: part (1) applied
to a melodic note played while the drum `voiceDW` sounds, part (2)
applied to a freshly started drum followed by `stopAllNotes`. -/
theorem claim_C3_witness :
    (∃ v', mapGet (playNote envW sDrumHeapW 5 100 nameM00 false 0 1 0 none none none 0
        none).1.voices 0 = some v' ∧
      v'.stopCalls = voiceDW.stopCalls ∧ v'.gainEvents = voiceDW.gainEvents ∧
      v'.startCalls = voiceDW.startCalls ∧ v'.loop = voiceDW.loop) ∧
    ((playNote envW sDrumW 10 100 nameD00 false 0 1 0 none none none 0 none).2).isSome = true ∧
    (∀ p, (playNote envW sDrumW 10 100 nameD00 false 0 1 0 none none none 0 none).2 =
        some p →
      p.2.stopCalls = [] ∧
      mapGet (stopAllNotes envW (playNote envW sDrumW 10 100 nameD00 false 0 1 0 none
        none none 0 none).1).voices p.1 = some p.2) := by
  refine ⟨?_, by with_unfolding_all decide, ?_⟩
  · exact claim_C3_drums_play_to_completion.1 envW sDrumHeapW 5 100 nameM00 false 0 1 0
      none none none 0 none 0 voiceDW (by with_unfolding_all decide) rfl
  · intro p hp
    have hdrum : p.2.isDrum = true := by
      have hcomp : ((playNote envW sDrumW 10 100 nameD00 false 0 1 0 none none none 0
          none).2.map (fun q => q.2.isDrum)) = some true := by
        with_unfolding_all decide
      rw [hp] at hcomp
      simpa using hcomp
    exact claim_C3_drums_play_to_completion.2 envW sDrumW 10 100 nameD00 0 1 0 none none
      none 0 none p.1 p.2 (by with_unfolding_all decide) (by rw [hp]) hdrum

end That38

